import Mathlib

/-! Shared-window fancy pointer
(AFQMC/Memory/SharedMemory/shm_ptr_with_raw_ptr_dispatch.hpp)

A shallow embedding of the shared-window pointer, its allocator and the range
operations defined on it. An operation is what ONE process of the group
executes; `uninitialized_copy_n_on_all` lets every process of a group run it.

Conventions of the embedding
* addresses and offsets are counted in elements and are `Int` (the C++ type is
  `std::ptrdiff_t`; signed overflow is undefined there and is not modelled);
* element counts (`Size n`, `size_type n`) are `Nat`;
* `wSP_` is `Option shared_window`: `none` is an empty `std::shared_ptr`.
  Code that dereferences an empty `wSP_` has no defined behaviour, the
  embedding returns `none` for it;
* what a process does is recorded as a trace of `Event`s next to the memory
  it sees.
-/

namespace shm

/-- The view one process has of an `mpi3::shared_window`: `base` is the value
of `base(0)` (in elements) and `root` is the value of
`mpi3::group(w).root()` for the calling process. -/
structure shared_window where
  base : Int
  root : Bool
deriving DecidableEq

/-- The class template `shm_ptr_with_raw_ptr_dispatch<T>`, lines 65-127: a
shared handle to a window and an element offset (default member initialiser
`offset = 0`, empty handle). -/
structure shm_ptr_with_raw_ptr_dispatch where
  wSP_ : Option shared_window := none
  offset : Int := 0
deriving DecidableEq

namespace shm_ptr_with_raw_ptr_dispatch

/-- Line 75/76: the default constructor and the `nullptr_t` constructor leave
both members at their default initialisers. -/
def null : shm_ptr_with_raw_ptr_dispatch := {}

/-- Line 77: the defaulted copy constructor copies both members. -/
def copy_construct (other : shm_ptr_with_raw_ptr_dispatch) : shm_ptr_with_raw_ptr_dispatch :=
  { wSP_ := other.wSP_, offset := other.offset }

/-- Line 115: `operator+=`. -/
def op_add_assign (p : shm_ptr_with_raw_ptr_dispatch) (d : Int) : shm_ptr_with_raw_ptr_dispatch :=
  { p with offset := p.offset + d }

/-- Line 114: `operator-=`. -/
def op_sub_assign (p : shm_ptr_with_raw_ptr_dispatch) (d : Int) : shm_ptr_with_raw_ptr_dispatch :=
  { p with offset := p.offset - d }

/-- Lines 101-105: `operator+(ptrdiff_t)`: copy, then `+=`. -/
def op_add (p : shm_ptr_with_raw_ptr_dispatch) (d : Int) : shm_ptr_with_raw_ptr_dispatch :=
  op_add_assign (copy_construct p) d

/-- Lines 106-110: `operator-(ptrdiff_t)`: copy, then `-=`. -/
def op_sub (p : shm_ptr_with_raw_ptr_dispatch) (d : Int) : shm_ptr_with_raw_ptr_dispatch :=
  op_sub_assign (copy_construct p) d

/-- Line 111: `operator-(shm_ptr_with_raw_ptr_dispatch)`. -/
def op_diff (p other : shm_ptr_with_raw_ptr_dispatch) : Int :=
  p.offset - other.offset

/-- Lines 116-118: `operator==`; both handles are dereferenced. -/
def op_eq (p other : shm_ptr_with_raw_ptr_dispatch) : Option Bool := do
  let w ← p.wSP_
  let wo ← other.wSP_
  pure (decide (w.base = wo.base) && decide (p.offset = other.offset))

/-- Line 119: `operator!=` is `not((*this)==other)`. -/
def op_ne (p other : shm_ptr_with_raw_ptr_dispatch) : Option Bool := do
  let b ← op_eq p other
  pure (!b)

/-- Lines 123-126: `to_address(p)` is `p.wSP_->base(0) + p.offset`. -/
def to_address (p : shm_ptr_with_raw_ptr_dispatch) : Option Int := do
  let w ← p.wSP_
  pure (w.base + p.offset)

end shm_ptr_with_raw_ptr_dispatch

open shm_ptr_with_raw_ptr_dispatch

/-! ## What a process does: events and memory -/

/-- One observable step of a process, in program order: a `fence()` on a
window, the construction of an element (placement new with the given value),
the assignment of an element, and the call of an element's destructor. -/
inductive Event (α : Type) where
  | fence (w : shared_window)
  | construct (addr : Int) (v : α)
  | assign (addr : Int) (v : α)
  | destroy (addr : Int)
deriving DecidableEq

/-- Whether the event is a fence. -/
def Event.isFence {α : Type} : Event α → Bool
  | Event.fence _ => true
  | _ => false

/-- Whether the event is the call of the destructor of the element at `a`. -/
def Event.isDestroyOf {α : Type} (a : Int) : Event α → Bool
  | Event.destroy b => decide (b = a)
  | _ => false

/-- The state of one process: the contents of the memory it sees (address to
element; the window is one physical region, so an address names the same
element in every process) and the events it has executed so far. -/
structure Proc (α : Type) where
  mem : Int → α
  trace : List (Event α)

namespace Proc

/-- The call `w.fence()`: the process reaches the barrier of window `w`. -/
def fence {α : Type} (s : Proc α) (w : shared_window) : Proc α :=
  { s with trace := s.trace ++ [Event.fence w] }

/-- Placement new, `::new((void*)addr) T(v)`. -/
def construct {α : Type} (s : Proc α) (addr : Int) (v : α) : Proc α :=
  { mem := Function.update s.mem addr v, trace := s.trace ++ [Event.construct addr v] }

/-- Assignment `*addr = v`. -/
def assign {α : Type} (s : Proc α) (addr : Int) (v : α) : Proc α :=
  { mem := Function.update s.mem addr v, trace := s.trace ++ [Event.assign addr v] }

/-- Destructor call `addr->~T()`. -/
def destroy {α : Type} (s : Proc α) (addr : Int) : Proc α :=
  { s with trace := s.trace ++ [Event.destroy addr] }

end Proc

/-! ## The in-process algorithms of the C++ standard library

They are not code of the repository; each is written as the loop the C++
standard gives as its effect, over raw element addresses. -/

/-- Standard `std::uninitialized_fill_n(first, n, val)` on a raw pointer:
`for (; n--; ++first) ::new (first) T(val);`. -/
def std_uninitialized_fill_n {α : Type} (val : α) : Int → Nat → Proc α → Proc α
  | _, 0, s => s
  | first, k + 1, s => std_uninitialized_fill_n val (first + 1) k (s.construct first val)

/-- Standard `std::copy_n(first, n, result)`: `*result++ = *first++`, `n` times, front
to back. -/
def std_copy_n {α : Type} : Int → Nat → Int → Proc α → Proc α
  | _, 0, _, s => s
  | first, k + 1, result, s =>
      std_copy_n (first + 1) k (result + 1) (s.assign result (s.mem first))

/-- Standard `std::uninitialized_copy_n(first, n, result)`:
`for (; n > 0; ++result, ++first, --n) ::new (result) T(*first);`. -/
def std_uninitialized_copy_n {α : Type} : Int → Nat → Int → Proc α → Proc α
  | _, 0, _, s => s
  | first, k + 1, result, s =>
      std_uninitialized_copy_n (first + 1) k (result + 1) (s.construct result (s.mem first))

/-- Standard `std::copy(first, last, result)` for the random-access iterators used
here: `last - first` elements are assigned front to back, none when the
difference is not positive. `count` is `last - first`. -/
def std_copy {α : Type} (first : Int) (count : Int) (result : Int) (s : Proc α) : Proc α :=
  std_copy_n first count.toNat result s

/-- Standard `std::uninitialized_copy(first, last, result)`, as `std_copy` with
construction in place of assignment. -/
def std_uninitialized_copy {α : Type} (first : Int) (count : Int) (result : Int)
    (s : Proc α) : Proc α :=
  std_uninitialized_copy_n first count.toNat result s

/-! ## The range operations, lines 170-263 -/

/-- Lines 170-177. -/
def uninitialized_fill_n {α : Type} (first : shm_ptr_with_raw_ptr_dispatch) (n : Nat)
    (val : α) (s : Proc α) : Option (shm_ptr_with_raw_ptr_dispatch × Proc α) :=
  if n = 0 then some (first, s) else do
    let w ← first.wSP_
    let s1 ← if w.root then do
                let a ← to_address first
                pure (std_uninitialized_fill_n val a n s)
              else pure s
    let s2 := s1.fence w
    let s3 := s2.fence w
    pure (op_add first n, s3)

/-- The loop of line 185, `for(; n > 0; (void) ++first_ptr, --n) first->~T();`:
`first` is the address `operator->` of the POINTER `first` yields, which the
loop never advances; the result carries the value of `n` at loop exit. -/
def destroy_n_loop {α : Type} (first : Int) : Int → Nat → Proc α → Nat × Proc α
  | _, 0, s => (0, s)
  | first_ptr, k + 1, s => destroy_n_loop first (first_ptr + 1) k (s.destroy first)

/-- Lines 179-190. The final `first + n` uses `n` as the loop left it. -/
def destroy_n {α : Type} (first : shm_ptr_with_raw_ptr_dispatch) (n : Nat)
    (s : Proc α) : Option (shm_ptr_with_raw_ptr_dispatch × Proc α) :=
  if n = 0 then some (first, s) else do
    let w ← first.wSP_
    let r ← if w.root then do
                let first_ptr ← to_address first
                pure (destroy_n_loop first_ptr first_ptr n s)
              else pure (n, s)
    let s2 := r.2.fence w
    let s3 := s2.fence w
    pure (op_add first r.1, s3)

/-- Lines 192-199. `It1 first` is any input iterator; it is given by the
address it reads from. There is no `n == 0` guard. -/
def copy_n {α : Type} (first : Int) (n : Nat) (d_first : shm_ptr_with_raw_ptr_dispatch)
    (s : Proc α) : Option (shm_ptr_with_raw_ptr_dispatch × Proc α) := do
  let w ← d_first.wSP_
  let s1 := s.fence w
  let s2 ← if w.root then do
              let a ← to_address d_first
              pure (std_copy_n first n a s1)
            else pure s1
  let s3 := s2.fence w
  pure (op_add d_first n, s3)

/-- Lines 201-210. `It1` has a member `wSP_`, so it is a shared-window
pointer; the fences are those of the window of `first`, the root test is on
the window of `d_first`; `distance(first, last)` is `last - first`. -/
def copy {α : Type} (first last d_first : shm_ptr_with_raw_ptr_dispatch)
    (s : Proc α) : Option (shm_ptr_with_raw_ptr_dispatch × Proc α) := do
  let e ← op_eq first last
  if e then pure (d_first, s) else do
    let wf ← first.wSP_
    let s1 := s.fence wf
    let wd ← d_first.wSP_
    let s2 ← if wd.root then do
                let a ← to_address d_first
                let src ← to_address first
                pure (std_copy src (op_diff last first) a s1)
              else pure s1
    let s3 := s2.fence wf
    pure (op_add d_first (op_diff last first), s3)

/-- Lines 212-220. `It1 f` has a member `wSP_`: a shared-window pointer. -/
def uninitialized_copy_n {α : Type} (f : shm_ptr_with_raw_ptr_dispatch) (n : Nat)
    (d : shm_ptr_with_raw_ptr_dispatch) (s : Proc α) :
    Option (shm_ptr_with_raw_ptr_dispatch × Proc α) :=
  if n = 0 then some (d, s) else do
    let wf ← f.wSP_
    let s1 := s.fence wf
    let wd ← d.wSP_
    let s2 ← if wd.root then do
                let a ← to_address d
                let src ← to_address f
                pure (std_uninitialized_copy_n src n a s1)
              else pure s1
    let s3 := s2.fence wf
    pure (op_add d n, s3)

/-- Lines 222-231. -/
def uninitialized_copy {α : Type} (f l d : shm_ptr_with_raw_ptr_dispatch)
    (s : Proc α) : Option (shm_ptr_with_raw_ptr_dispatch × Proc α) := do
  let e ← op_eq f l
  if e then pure (d, s) else do
    let wf ← f.wSP_
    let s1 := s.fence wf
    let wd ← d.wSP_
    let s2 ← if wd.root then do
                let a ← to_address d
                let src ← to_address f
                pure (std_uninitialized_copy src (op_diff l f) a s1)
              else pure s1
    let s3 := s2.fence wf
    pure (op_add d (op_diff l f), s3)

/-- What a `return` statement of the two construct operations hands back: the
root branch returns the raw `T* current`, the last line returns `f + n`. The
class has no constructor that takes a `T*` (lines 75-77 declare the default,
the `nullptr_t` and the copy constructor only), so `return current;` does not
compile once the template is instantiated: `raw` stands for a value that no
compiled program obtains, and only the paths that return a `ptr` are runs of
the code. -/
inductive Returned where
  | ptr (p : shm_ptr_with_raw_ptr_dispatch)
  | raw (current : Int)
deriving DecidableEq

/-- The loop of lines 241 and 257,
`for(; n > 0; ++current, --n) (::new((void*)current) T());`, with `T0` the
value `T()`; the result carries `current` at loop exit. -/
def construct_loop {α : Type} (T0 : α) : Int → Nat → Proc α → Int × Proc α
  | current, 0, s => (current, s)
  | current, k + 1, s => construct_loop T0 (current + 1) k (s.construct current T0)

/-- Lines 233-247. In the root branch `return current;` leaves the function
from inside the `if`; a constructor that throws is not modelled. -/
def uninitialized_default_construct_n {α : Type} (T0 : α)
    (f : shm_ptr_with_raw_ptr_dispatch) (n : Nat) (s : Proc α) :
    Option (Returned × Proc α) :=
  if n = 0 then some (Returned.ptr f, s) else do
    let w ← f.wSP_
    let s1 := s.fence w
    if w.root then do
      let current ← to_address f
      let r := construct_loop T0 current n s1
      pure (Returned.raw r.1, r.2)
    else
      let s2 := s1.fence w
      pure (Returned.ptr (op_add f n), s2)

/-- Lines 249-263, the same text as `uninitialized_default_construct_n`. -/
def uninitialized_value_construct_n {α : Type} (T0 : α)
    (f : shm_ptr_with_raw_ptr_dispatch) (n : Nat) (s : Proc α) :
    Option (Returned × Proc α) :=
  if n = 0 then some (Returned.ptr f, s) else do
    let w ← f.wSP_
    let s1 := s.fence w
    if w.root then do
      let current ← to_address f
      let r := construct_loop T0 current n s1
      pure (Returned.raw r.1, r.2)
    else
      let s2 := s1.fence w
      pure (Returned.ptr (op_add f n), s2)

/-! ## Shapes of traces used to state the protocol -/

/-- Whether the event writes an element (construction or assignment). -/
def Event.isWrite {α : Type} : Event α → Bool
  | Event.construct _ _ => true
  | Event.assign _ _ => true
  | _ => false

/-- The events a call appended to `before`, giving `after`, are: a fence, then
`k` element writes, then a fence. -/
def fence_writes_fence {α : Type} (before after : List (Event α)) (k : Nat) : Prop :=
  ∃ (w1 w2 : shared_window) (work : List (Event α)),
    after = before ++ Event.fence w1 :: (work ++ [Event.fence w2]) ∧
    (∀ e ∈ work, e.isWrite = true) ∧ work.length = k

/-- Going from `s` to `s1` the process changed no element and executed
nothing but fences. -/
def only_fences {α : Type} (s s1 : Proc α) : Prop :=
  s1.mem = s.mem ∧
  ∃ added : List (Event α), s1.trace = s.trace ++ added ∧ ∀ e ∈ added, e.isFence = true

/-- The number of fences among the events appended to `before`. -/
def fences_added {α : Type} (before after : List (Event α)) : Nat :=
  (after.drop before.length).countP Event.isFence

/-! ## A group of processes on one window -/

/-- The pointer `p` as held by a process whose root flag is `r`: the same
window and offset, with `mpi3::group(w).root()` answering `r`. -/
def held_by (r : Bool) (p : shm_ptr_with_raw_ptr_dispatch) : shm_ptr_with_raw_ptr_dispatch :=
  { p with wSP_ := p.wSP_.map (fun w => { w with root := r }) }

/-- Every process of a group (one entry of `roots` per process, its root flag)
calls `uninitialized_copy_n(f, n, d)` on the region they share; the result is
the pointer each call returned and the contents once all have returned. Only
the root writes, between the fences, so running the calls one after the other
gives the contents the collective call leaves. -/
def uninitialized_copy_n_on_all {α : Type} (f : shm_ptr_with_raw_ptr_dispatch) (n : Nat)
    (d : shm_ptr_with_raw_ptr_dispatch) :
    List Bool → (Int → α) → Option (List shm_ptr_with_raw_ptr_dispatch × (Int → α))
  | [], mem => some ([], mem)
  | r :: rest, mem => do
      let one ← uninitialized_copy_n (held_by r f) n (held_by r d) { mem := mem, trace := [] }
      let more ← uninitialized_copy_n_on_all f n d rest one.2.mem
      pure (one.1 :: more.1, more.2)

/-! ## Concrete inputs used to evaluate the operations -/

/-- A window based at address 100, seen from the root of its group. -/
def sample_root_window : shared_window := { base := 100, root := true }

/-- The same window seen from a process that is not the root. -/
def sample_other_window : shared_window := { base := 100, root := false }

/-- A pointer at offset 3 into the window, held by the root. -/
def sample_root_ptr : shm_ptr_with_raw_ptr_dispatch :=
  { wSP_ := some sample_root_window, offset := 3 }

/-- A pointer at offset 3 into the window, held by a non-root process. -/
def sample_other_ptr : shm_ptr_with_raw_ptr_dispatch :=
  { wSP_ := some sample_other_window, offset := 3 }

/-- A process whose memory holds `10 * a` at address `a` and that has executed
nothing yet. -/
def sample_proc : Proc Int := { mem := fun a => 10 * a, trace := [] }

/-! ## The allocator, lines 129-167 -/

/-- A call the allocator makes on its communicator. -/
inductive CommCall where
  | root
  | make_shared_window (n : Nat)
deriving DecidableEq

/-- Whether the call is a collective window-creation request. -/
def CommCall.isCreation : CommCall → Bool
  | CommCall.make_shared_window _ => true
  | CommCall.root => false

/-- The `mpi3::shared_communicator` as the calling process uses it (the mpi3
library is not part of the sources): `root` is what `comm_.root()` returns and
`make_shared_window n` is the window the facility hands to this process when
it asks for `n` elements. -/
structure shared_communicator where
  root : Bool
  make_shared_window : Nat → shared_window

/-- The allocator, whose only member is the communicator `comm_`. -/
structure allocator_shm_ptr_with_raw_ptr_dispatch where
  comm_ : shared_communicator

/-- Lines 144-156, `allocate(n)`: the pointer returned and the calls made on
`comm_`, in order (the argument `comm_.root()?n:0` is evaluated before the
call it is passed to). -/
def allocator_shm_ptr_with_raw_ptr_dispatch.allocate
    (a : allocator_shm_ptr_with_raw_ptr_dispatch) (n : Nat) :
    shm_ptr_with_raw_ptr_dispatch × List CommCall :=
  let ret : shm_ptr_with_raw_ptr_dispatch := shm_ptr_with_raw_ptr_dispatch.null
  if n = 0 then
    ({ ret with wSP_ := some (a.comm_.make_shared_window 0) },
     [CommCall.make_shared_window 0])
  else
    let sz := if a.comm_.root then n else 0
    ({ ret with wSP_ := some (a.comm_.make_shared_window sz) },
     [CommCall.root, CommCall.make_shared_window sz])

/-! ## Null pointers and the remaining members of the pointer, lines 38-115 -/

namespace shm_ptr_with_raw_ptr_dispatch

/-- Line 79: `operator=(std::nullptr_t){return *this;}`; the body only returns
the object. -/
def assign_nullptr (p : shm_ptr_with_raw_ptr_dispatch) : shm_ptr_with_raw_ptr_dispatch := p

/-- Line 86: `explicit operator bool() const{return (bool)wSP_;}`. -/
def op_bool (p : shm_ptr_with_raw_ptr_dispatch) : Bool := p.wSP_.isSome

/-- Line 87: `operator==(std::nullptr_t)` is `not (bool)wSP_`. -/
def op_eq_nullptr (p : shm_ptr_with_raw_ptr_dispatch) : Bool := !(p.wSP_.isSome)

/-- Line 88: `operator!=(std::nullptr_t)` is `not operator==(nullptr)`. -/
def op_ne_nullptr (p : shm_ptr_with_raw_ptr_dispatch) : Bool := !(op_eq_nullptr p)

/-- Line 112: `operator--()`, `--offset`. -/
def op_pre_dec (p : shm_ptr_with_raw_ptr_dispatch) : shm_ptr_with_raw_ptr_dispatch :=
  { p with offset := p.offset - 1 }

/-- Line 113: `operator++()`, `++offset`. -/
def op_pre_inc (p : shm_ptr_with_raw_ptr_dispatch) : shm_ptr_with_raw_ptr_dispatch :=
  { p with offset := p.offset + 1 }

end shm_ptr_with_raw_ptr_dispatch

/-- Lines 38-49: the specialisation `shm_ptr_with_raw_ptr_dispatch<const void>`,
with the same two members. -/
structure shm_ptr_with_raw_ptr_dispatch_const_void where
  wSP_ : Option shared_window := none
  offset : Int := 0
deriving DecidableEq

namespace shm_ptr_with_raw_ptr_dispatch_const_void

/-- Line 43: the constructor `(std::nullptr_t = nullptr)`, also the default
constructor. -/
def null : shm_ptr_with_raw_ptr_dispatch_const_void := {}

/-- Line 46: `operator=(std::nullptr_t){wSP_.reset(); return *this;}`. -/
def assign_nullptr (p : shm_ptr_with_raw_ptr_dispatch_const_void) :
    shm_ptr_with_raw_ptr_dispatch_const_void :=
  { p with wSP_ := none }

/-- Line 47: `operator==(std::nullptr_t) const{return (bool)wSP_;}`. -/
def op_eq_nullptr (p : shm_ptr_with_raw_ptr_dispatch_const_void) : Bool := p.wSP_.isSome

/-- Line 48: `operator!=(std::nullptr_t)` is `not operator==(nullptr)`. -/
def op_ne_nullptr (p : shm_ptr_with_raw_ptr_dispatch_const_void) : Bool :=
  !(op_eq_nullptr p)

end shm_ptr_with_raw_ptr_dispatch_const_void

/-- Lines 51-63: the specialisation `shm_ptr_with_raw_ptr_dispatch<void>`. -/
structure shm_ptr_with_raw_ptr_dispatch_void where
  wSP_ : Option shared_window := none
  offset : Int := 0
deriving DecidableEq

namespace shm_ptr_with_raw_ptr_dispatch_void

/-- Line 57: the constructor `(std::nullptr_t = nullptr)`, also the default
constructor. -/
def null : shm_ptr_with_raw_ptr_dispatch_void := {}

/-- Line 60: `operator=(std::nullptr_t){wSP_.reset(); return *this;}`. -/
def assign_nullptr (p : shm_ptr_with_raw_ptr_dispatch_void) :
    shm_ptr_with_raw_ptr_dispatch_void :=
  { p with wSP_ := none }

/-- Line 61: `operator==(std::nullptr_t) const{return (bool)wSP_;}`. -/
def op_eq_nullptr (p : shm_ptr_with_raw_ptr_dispatch_void) : Bool := p.wSP_.isSome

/-- Line 62: `operator!=(std::nullptr_t)` is `not operator==(nullptr)`. -/
def op_ne_nullptr (p : shm_ptr_with_raw_ptr_dispatch_void) : Bool :=
  !(op_eq_nullptr p)

end shm_ptr_with_raw_ptr_dispatch_void

/-! ## Local reference counts of the windows

`wSP_` is a `std::shared_ptr`: every pointer object of the process that holds
a window owns one reference to it. -/

/-- The number of `shared_ptr`s of the calling process that own each window
(`use_count()` of its control block). -/
structure Refs where
  use_count : shared_window → Nat

namespace Refs

/-- A `shared_ptr` is copied from the handle `h`: one more owner of the window
it holds, nothing for an empty handle. -/
def acquire (r : Refs) (h : Option shared_window) : Refs :=
  match h with
  | none => r
  | some w => { use_count := Function.update r.use_count w (r.use_count w + 1) }

/-- A `shared_ptr` holding `h` is reset or destroyed: one owner less of the
window it holds, nothing for an empty handle. -/
def release (r : Refs) (h : Option shared_window) : Refs :=
  match h with
  | none => r
  | some w => { use_count := Function.update r.use_count w (r.use_count w - 1) }

end Refs

/-- Line 157, `void deallocate(shm_ptr_with_raw_ptr_dispatch<T> ptr, size_type)
{ptr.wSP_.reset();}`. The parameter `ptr` is passed BY VALUE: it is
copy-constructed from the pointer of the caller, the body resets the handle of
that parameter, and the (now empty) parameter is destroyed on return. The
result is the pointer of the caller after the call and the reference counts
after the call. -/
def allocator_shm_ptr_with_raw_ptr_dispatch.deallocate
    (_a : allocator_shm_ptr_with_raw_ptr_dispatch) (refs : Refs)
    (caller_ptr : shm_ptr_with_raw_ptr_dispatch) (_n : Nat) :
    shm_ptr_with_raw_ptr_dispatch × Refs :=
  let ptr := shm_ptr_with_raw_ptr_dispatch.copy_construct caller_ptr
  let refs1 := refs.acquire ptr.wSP_
  let refs2 := refs1.release ptr.wSP_
  let ptr1 : shm_ptr_with_raw_ptr_dispatch := { ptr with wSP_ := none }
  let refs3 := refs2.release ptr1.wSP_
  (caller_ptr, refs3)

/-- Reference counts in which every window has exactly one local owner. -/
def sample_refs : Refs := { use_count := fun _ => 1 }

end shm

/-! Dispatch of the BLAS primitives on device pointers
(AFQMC/Numerics/detail/CUDA/blas_cuda_gpu_ptr.hpp, AFQMC/Memory/CUDA/cuda_utilities.h)

The GPU runtime and the vendor library are outside the sources. Every call
into them is recorded, with its arguments, in the order it is made, and what
the `k`-th call does is given by an environment `env k`: it returns a status,
or (a C++ wrapper, `operator new`) leaves by an exception. Integers of type
`int` are passed through unchanged and are `Int`; products formed in `size_t`
are reduced modulo `2 ^ 64`. -/

namespace qmc_cuda

/-- The struct `gpu_handles`, cuda_utilities.h lines 52-57: four pointers to
library contexts, each given by the address it holds. -/
structure gpu_handles where
  cublas_handle : Nat
  cublasXt_handle : Nat
  cusolverDn_handle : Nat
  curand_generator : Nat
deriving DecidableEq

/-- Modelled from the spec: the device pointer `cuda_gpu_ptr<T>`, whose header
AFQMC/Memory/CUDA/cuda_gpu_pointer.hpp is not among the sources; its state is
"a raw device address plus a reference to the handle bundle". -/
structure cuda_gpu_ptr where
  handles : gpu_handles
  impl_ : Int
deriving DecidableEq

/-- Modelled from the spec: `to_address` of a device pointer (same missing
header), the raw address taken "for library calls". -/
def to_address (p : cuda_gpu_ptr) : Int := p.impl_

/-- Value of `cudaSuccess` in the CUDA runtime headers. -/
def cudaSuccess : Nat := 0

/-- Value of `CUBLAS_STATUS_SUCCESS` in the cuBLAS headers. -/
def CUBLAS_STATUS_SUCCESS : Nat := 0

/-- Conversion of an integer to the 64-bit unsigned `size_t`. -/
def to_size_t (x : Int) : Int := x % 2 ^ 64

/-- Size in bytes of a pointer, `sizeof(*A_h)` for `T **A_h`, on the 64-bit
hosts CUDA runs on. -/
def sizeof_pointer : Int := 8

/-- The direction argument of a transfer. -/
inductive cudaMemcpyKind where
  | cudaMemcpyHostToDevice
  | cudaMemcpyDeviceToHost
deriving DecidableEq

/-- The six local staging arrays of `gemmBatched`, lines 228-229. -/
inductive Staging where
  | A_h
  | B_h
  | C_h
  | A_d
  | B_d
  | C_d
deriving DecidableEq

/-- A call into the GPU runtime, the vendor library or the C++ runtime, with
the arguments the source passes, in the order of its parameter list. Device
and host addresses are `Int`, a library handle is the address of the handle,
a staging array is named by its variable, `cublasSetVector` and `cudaMemcpy`
carry the contents of the host buffer they read. -/
inductive Call (α : Type) where
  | cublas_copy (handle : Nat) (n x incx y incy : Int)
  | cudaMemcpy2D (dst dpitch src spitch width height : Int) (kind : cudaMemcpyKind)
  | cublas_scal (handle : Nat) (n : Int) (alpha : α) (x incx : Int)
  | cublas_axpy (handle : Nat) (n : Int) (a : α) (x incx y incy : Int)
  | cublas_gemv (handle : Nat) (Atrans : Char) (M N : Int) (alpha : α) (A lda x incx : Int)
      (beta : α) (y incy : Int)
  | cublas_gemm (handle : Nat) (Atrans Btrans : Char) (M N K : Int) (alpha : α)
      (A lda B ldb : Int) (beta : α) (C ldc : Int)
  | cublas_geam (handle : Nat) (Atrans Btrans : Char) (M N : Int) (alpha : α)
      (A lda : Int) (beta : α) (B ldb C ldc : Int)
  | cublasSetVector (n elemSize : Int) (x : List α) (incx y incy : Int)
  | cublas_gemmStridedBatched (handle : Nat) (Atrans Btrans : Char) (M N K : Int)
      (alpha : α) (A lda strideA B ldb strideB : Int) (beta : α) (C ldc strideC : Int)
      (batchSize : Int)
  | new_array (v : Staging) (len : Nat)
  | cudaMalloc (v : Staging) (size : Int)
  | cudaMemcpy (dst src : Staging) (content : List Int) (count : Int) (kind : cudaMemcpyKind)
  | cublas_gemmBatched (handle : Nat) (Atrans Btrans : Char) (M N K : Int) (alpha : α)
      (A_dev : Staging) (lda : Int) (B_dev : Staging) (ldb : Int) (beta : α)
      (C_dev : Staging) (ldc : Int) (batchSize : Int)
  | cudaFree (v : Staging)
  | delete_array (v : Staging)
  | kernels_axty (n : Int) (alpha : α) (x y : Int)
deriving DecidableEq

/-- The staging array a call acquires: `new T*[n]` and `cudaMalloc`. -/
def Call.acquired {α : Type} : Call α → Option Staging
  | Call.new_array v _ => some v
  | Call.cudaMalloc v _ => some v
  | _ => none

/-- The staging array a call releases: `delete []` and `cudaFree`. -/
def Call.released {α : Type} : Call α → Option Staging
  | Call.delete_array v => some v
  | Call.cudaFree v => some v
  | _ => none

/-- What an external call does: it returns a status code, or it leaves by an
exception. -/
inductive Outcome where
  | returned (status : Nat)
  | raised
deriving DecidableEq

/-- How a primitive is left: normally, by a `std::runtime_error` it throws
itself, by the exception of its external call number `call_index`, or not at
all defined (an array read past its end). -/
inductive Result where
  | ok
  | runtime_error (what : String)
  | propagated (call_index : Nat)
  | undefined
deriving DecidableEq

/-- The execution of a primitive: the external calls made so far and how the
primitive has been left, `Result.ok` while it is still running. -/
structure Run (α : Type) where
  calls : List (Call α)
  result : Result

namespace Run

/-- The primitive is entered. -/
def start {α : Type} : Run α := { calls := [], result := Result.ok }

/-- An external call as a statement of its own: the status it returns is not
looked at; an exception of the call leaves the primitive. -/
def call {α : Type} (env : Nat → Outcome) (r : Run α) (c : Call α) : Run α :=
  match r.result with
  | Result.ok =>
      match env r.calls.length with
      | Outcome.returned _ => { calls := r.calls ++ [c], result := Result.ok }
      | Outcome.raised => { calls := r.calls ++ [c], result := Result.propagated r.calls.length }
  | _ => r

/-- The statement `if(success != c) throw std::runtime_error(what);`. -/
def checked_call {α : Type} (env : Nat → Outcome) (r : Run α) (c : Call α)
    (success : Nat) (what : String) : Run α :=
  match r.result with
  | Result.ok =>
      match env r.calls.length with
      | Outcome.returned status =>
          { calls := r.calls ++ [c],
            result := if success ≠ status then Result.runtime_error what else Result.ok }
      | Outcome.raised => { calls := r.calls ++ [c], result := Result.propagated r.calls.length }
  | _ => r

/-- An array is read past its end while the primitive is running. -/
def fault {α : Type} (r : Run α) : Run α :=
  match r.result with
  | Result.ok => { r with result := Result.undefined }
  | _ => r

end Run

/-! ## The primitives, blas_cuda_gpu_ptr.hpp lines 39-252

`sizeofT` is `sizeof(T)`; `copy` is overloaded in the source, the three
overloads are told apart by the kinds of their pointer arguments. -/

/-- Lines 39-44, `copy` from device pointer to device pointer. -/
def copy_device_to_device (α : Type) (env : Nat → Outcome) (n : Int) (x : cuda_gpu_ptr)
    (incx : Int) (y : cuda_gpu_ptr) (incy : Int) : Run α :=
  Run.start.checked_call env
    (Call.cublas_copy x.handles.cublas_handle n (to_address x) incx (to_address y) incy)
    CUBLAS_STATUS_SUCCESS ("Error: cublas_copy returned error code.")

/-- Lines 46-53, `copy` from the host pointer `x` to a device pointer. -/
def copy_host_to_device (α : Type) (env : Nat → Outcome) (sizeofT : Nat) (n : Int) (x : Int)
    (incx : Int) (y : cuda_gpu_ptr) (incy : Int) : Run α :=
  Run.start.checked_call env
    (Call.cudaMemcpy2D (to_address y) (to_size_t (sizeofT * incy))
      x (to_size_t (sizeofT * incx))
      (to_size_t sizeofT) (to_size_t n) cudaMemcpyKind.cudaMemcpyHostToDevice)
    cudaSuccess ("Error: cudaMemcpy2D returned error code.")

/-- Lines 55-64, `copy` from a device pointer to the host pointer `y`; the
`static_assert` makes `sizeof(Q)` equal to `sizeof(T)`. -/
def copy_device_to_host (α : Type) (env : Nat → Outcome) (sizeofT : Nat) (n : Int)
    (x : cuda_gpu_ptr) (incx : Int) (y : Int) (incy : Int) : Run α :=
  Run.start.checked_call env
    (Call.cudaMemcpy2D y (to_size_t (sizeofT * incy))
      (to_address x) (to_size_t (sizeofT * incx))
      (to_size_t sizeofT) (to_size_t n) cudaMemcpyKind.cudaMemcpyDeviceToHost)
    cudaSuccess ("Error: cudaMemcpy2D returned error code.")

/-- Lines 67-72, `scal`; `alpha` is the value `T(alpha)`. -/
def scal {α : Type} (env : Nat → Outcome) (n : Int) (alpha : α) (x : cuda_gpu_ptr)
    (incx : Int) : Run α :=
  Run.start.checked_call env
    (Call.cublas_scal x.handles.cublas_handle n alpha (to_address x) incx)
    CUBLAS_STATUS_SUCCESS ("Error: cublas_scal returned error code.")

/-- Lines 83-91, `axpy`. -/
def axpy {α : Type} (env : Nat → Outcome) (n : Int) (a : α) (x : cuda_gpu_ptr) (incx : Int)
    (y : cuda_gpu_ptr) (incy : Int) : Run α :=
  Run.start.checked_call env
    (Call.cublas_axpy x.handles.cublas_handle n a (to_address x) incx (to_address y) incy)
    CUBLAS_STATUS_SUCCESS ("Error: cublas_axpy returned error code.")

/-- Lines 94-106, `gemv`. -/
def gemv {α : Type} (env : Nat → Outcome) (Atrans : Char) (M N : Int) (alpha : α)
    (A : cuda_gpu_ptr) (lda : Int) (x : cuda_gpu_ptr) (incx : Int) (beta : α)
    (y : cuda_gpu_ptr) (incy : Int) : Run α :=
  Run.start.checked_call env
    (Call.cublas_gemv A.handles.cublas_handle Atrans M N alpha (to_address A) lda
      (to_address x) incx beta (to_address y) incy)
    CUBLAS_STATUS_SUCCESS ("Error: cublas_gemv returned error code.")

/-- Lines 110-121, `gemm`. -/
def gemm {α : Type} (env : Nat → Outcome) (Atrans Btrans : Char) (M N K : Int) (alpha : α)
    (A : cuda_gpu_ptr) (lda : Int) (B : cuda_gpu_ptr) (ldb : Int) (beta : α)
    (C : cuda_gpu_ptr) (ldc : Int) : Run α :=
  Run.start.checked_call env
    (Call.cublas_gemm A.handles.cublas_handle Atrans Btrans M N K alpha (to_address A) lda
      (to_address B) ldb beta (to_address C) ldc)
    CUBLAS_STATUS_SUCCESS ("Error: cublas_gemm returned error code.")

/-- Lines 125-136, `geam`. -/
def geam {α : Type} (env : Nat → Outcome) (Atrans Btrans : Char) (M N : Int) (alpha : α)
    (A : cuda_gpu_ptr) (lda : Int) (beta : α) (B : cuda_gpu_ptr) (ldb : Int)
    (C : cuda_gpu_ptr) (ldc : Int) : Run α :=
  Run.start.checked_call env
    (Call.cublas_geam A.handles.cublas_handle Atrans Btrans M N alpha (to_address A) lda
      beta (to_address B) ldb (to_address C) ldc)
    CUBLAS_STATUS_SUCCESS ("Error: cublas_geam returned error code.")

/-- Lines 138-148, `set1D`: the host source of `cublasSetVector` is
`std::addressof(alpha)`, a buffer holding the one value `alpha`, read with
stride 1. -/
def set1D {α : Type} (env : Nat → Outcome) (sizeofT : Nat) (n : Int) (alpha : α)
    (x : cuda_gpu_ptr) (incx : Int) : Run α :=
  Run.start.checked_call env
    (Call.cublasSetVector n sizeofT [alpha] 1 (to_address x) incx)
    CUBLAS_STATUS_SUCCESS ("Error: cublasSetVector returned error code.")

/-- Lines 211-220, `gemmStridedBatched`: the call is an expression statement,
the value it returns is dropped. -/
def gemmStridedBatched {α : Type} (env : Nat → Outcome) (Atrans Btrans : Char)
    (M N K : Int) (alpha : α) (A : cuda_gpu_ptr) (lda strideA : Int)
    (B : cuda_gpu_ptr) (ldb strideB : Int) (beta : α)
    (C : cuda_gpu_ptr) (ldc strideC : Int) (batchSize : Int) : Run α :=
  Run.start.call env
    (Call.cublas_gemmStridedBatched A.handles.cublas_handle Atrans Btrans M N K alpha
      (to_address A) lda strideA (to_address B) ldb strideB beta
      (to_address C) ldc strideC batchSize)

/-- The addresses `to_address(P[0])`, ..., `to_address(P[k-1])` that the loop
of lines 233-237 stores, `none` when the array `P` has fewer than `k` entries. -/
def addresses (P : List cuda_gpu_ptr) : Nat → Option (List Int)
  | 0 => some []
  | k + 1 => do
      let before ← addresses P k
      let p ← P.get? k
      pure (before ++ [to_address p])

/-- Lines 222-252, `gemmBatched`; `A`, `B`, `C` are the arrays the three
pointer arguments point to. No status is looked at and there is no handler:
an exception of a call leaves the function at that call. -/
def gemmBatched {α : Type} (env : Nat → Outcome) (Atrans Btrans : Char) (M N K : Int)
    (alpha : α) (A : List cuda_gpu_ptr) (lda : Int) (B : List cuda_gpu_ptr) (ldb : Int)
    (beta : α) (C : List cuda_gpu_ptr) (ldc : Int) (batchSize : Nat) : Run α :=
  let r1 := ((Run.start.call env (Call.new_array Staging.A_h batchSize)).call env
    (Call.new_array Staging.B_h batchSize)).call env (Call.new_array Staging.C_h batchSize)
  match addresses A batchSize, addresses B batchSize, addresses C batchSize with
  | some a_h, some b_h, some c_h =>
      let size := to_size_t (batchSize * sizeof_pointer)
      let r2 := ((r1.call env (Call.cudaMalloc Staging.A_d size)).call env
        (Call.cudaMalloc Staging.B_d size)).call env (Call.cudaMalloc Staging.C_d size)
      let r3 := ((r2.call env (Call.cudaMemcpy Staging.A_d Staging.A_h a_h size
          cudaMemcpyKind.cudaMemcpyHostToDevice)).call env
        (Call.cudaMemcpy Staging.B_d Staging.B_h b_h size
          cudaMemcpyKind.cudaMemcpyHostToDevice)).call env
        (Call.cudaMemcpy Staging.C_d Staging.C_h c_h size
          cudaMemcpyKind.cudaMemcpyHostToDevice)
      match A.get? 0 with
      | some A0 =>
          let r4 := r3.call env (Call.cublas_gemmBatched A0.handles.cublas_handle
            Atrans Btrans M N K alpha Staging.A_d lda Staging.B_d ldb beta Staging.C_d ldc
            batchSize)
          let r5 := ((r4.call env (Call.cudaFree Staging.A_d)).call env
            (Call.cudaFree Staging.B_d)).call env (Call.cudaFree Staging.C_d)
          ((r5.call env (Call.delete_array Staging.A_h)).call env
            (Call.delete_array Staging.B_h)).call env (Call.delete_array Staging.C_h)
      | none => r3.fault
  | _, _, _ => r1.fault

/-- Lines 160-169, `axty`: the strides are tested first, then the hand-written
kernel is launched through `kernels::axty`, which returns nothing. -/
def axty {α : Type} (env : Nat → Outcome) (n : Int) (alpha : α) (x : cuda_gpu_ptr)
    (incx : Int) (y : cuda_gpu_ptr) (incy : Int) : Run α :=
  if incx ≠ 1 ∨ incy ≠ 1 then
    { calls := [], result := Result.runtime_error ("Error: axty with inc != 1 not implemented.") }
  else
    Run.start.call env (Call.kernels_axty n alpha (to_address x) (to_address y))

namespace gpu_handles

/-- The member `operator==`, cuda_utilities.h lines 57-62: the four pointers
are compared. -/
def op_eq (a other : gpu_handles) : Bool :=
  decide (a.cublas_handle = other.cublas_handle) &&
  decide (a.cublasXt_handle = other.cublasXt_handle) &&
  decide (a.cusolverDn_handle = other.cusolverDn_handle) &&
  decide (a.curand_generator = other.curand_generator)

/-- The member `operator!=`, line 63: `not (*this == other)`. -/
def op_ne (a other : gpu_handles) : Bool := !(op_eq a other)

end gpu_handles

/-! ## What the transfers of the runtime do

The transfers are not code of the repository; each is written as its
documentation describes a call that succeeds. Memory is addressed in bytes. -/

/-- One row of a 2-D transfer: the `width` bytes at `src` of the source memory
are written to `dst`. -/
def copy_row {β : Type} (srcMem : Int → β) (src dst : Int) : Nat → (Int → β) → (Int → β)
  | 0, m => m
  | b + 1, m => Function.update (copy_row srcMem src dst b m) (dst + b) (srcMem (src + b))

/-- The first `rows` rows of `cudaMemcpy2D(dst, dpitch, src, spitch, width, ..)`:
row `r` is the `width` bytes at `src + r * spitch`, written to
`dst + r * dpitch`. -/
def copy_rows {β : Type} (srcMem : Int → β) (dst dpitch src spitch : Int) (width : Nat) :
    Nat → (Int → β) → (Int → β)
  | 0, m => m
  | r + 1, m =>
      copy_row srcMem (src + r * spitch) (dst + r * dpitch) width
        (copy_rows srcMem dst dpitch src spitch width r m)

/-- The memory `cudaMemcpy2D(dst, dpitch, src, spitch, width, height, kind)`
leaves at the destination: `height` rows of `width` bytes. -/
def cudaMemcpy2D_effect {β : Type} (srcMem dstMem : Int → β)
    (dst dpitch src spitch width height : Int) : Int → β :=
  copy_rows srcMem dst dpitch src spitch width.toNat height.toNat dstMem

/-- The effect of the call on the destination memory, for a `cudaMemcpy2D`
call; any other call leaves the memory as it is. -/
def Call.transfer {α β : Type} (srcMem dstMem : Int → β) : Call α → (Int → β)
  | Call.cudaMemcpy2D dst dpitch src spitch width height _ =>
      cudaMemcpy2D_effect srcMem dstMem dst dpitch src spitch width height
  | _ => dstMem

/-- The indices of the host vector that `cublasSetVector(n, elemSize, x, incx,
y, incy)` reads: element `i` of the transfer is `x[i * incx]`, for
`0 <= i < n`. -/
def cublasSetVector_source_indices (n incx : Int) : List Int :=
  (List.range n.toNat).map (fun i => (i : Int) * incx)

/-- The host indices a call reads that lie OUTSIDE the host buffer it was
given, for a `cublasSetVector` call. -/
def Call.reads_outside {α : Type} : Call α → List Int
  | Call.cublasSetVector n _ x incx _ _ =>
      (cublasSetVector_source_indices n incx).filter
        (fun i => decide (i < 0 ∨ (x.length : Int) ≤ i))
  | _ => []

/-! ## Shapes of runs used to state the error handling -/

/-- The run made exactly one external call, it threw a `std::runtime_error`
of its own exactly when that call returned a status other than `success`,
and it was left normally when the call returned `success`. -/
def status_checked {α : Type} (env : Nat → Outcome) (success : Nat) (r : Run α) : Prop :=
  (∃ c, r.calls = [c]) ∧
  ((∃ what, r.result = Result.runtime_error what) ↔
      ∃ status, env 0 = Outcome.returned status ∧ status ≠ success) ∧
  (env 0 = Outcome.returned success → r.result = Result.ok)

/-- How many of the calls acquire the staging array `v`. -/
def acquisitions {α : Type} (v : Staging) (calls : List (Call α)) : Nat :=
  calls.countP (fun c => decide (c.acquired = some v))

/-- How many of the calls release the staging array `v`. -/
def releases {α : Type} (v : Staging) (calls : List (Call α)) : Nat :=
  calls.countP (fun c => decide (c.released = some v))

/-! ## Concrete inputs used to evaluate the primitives -/

/-- A handle bundle. -/
def sample_handles : gpu_handles :=
  { cublas_handle := 1, cublasXt_handle := 2, cusolverDn_handle := 3, curand_generator := 4 }

/-- A device pointer with address `a`. -/
def sample_ptr (a : Int) : cuda_gpu_ptr := { handles := sample_handles, impl_ := a }

/-- Every external call returns success. -/
def env_success : Nat → Outcome := fun _ => Outcome.returned 0

/-- External call number `k` returns the status `status`, every other call
returns success. -/
def env_status_at (k : Nat) (status : Nat) : Nat → Outcome :=
  fun i => if i = k then Outcome.returned status else Outcome.returned 0

/-- External call number `k` leaves by an exception, every other call returns
success. -/
def env_raise_at (k : Nat) : Nat → Outcome :=
  fun i => if i = k then Outcome.raised else Outcome.returned 0

end qmc_cuda

/-! The orbital set of a twist angle and the optimisation driver
(Numerics/TricubicBsplineGCSet.h, QMCDrivers/QMCOptimize.cpp) -/

namespace qmcplusplus

/-! ## TricubicBsplineTwistSet, the two `add`, lines 79-101

The member `P` is a `std::map<int,const StorageType*>`; it is the list of its
entries, a `StorageType*` being the address it holds. -/

/-- The lookup `P.find(i)`: the value stored under the key `i`, `none` for
`P.end()`. -/
def map_find (i : Int) : List (Int × Nat) → Option Nat
  | [] => none
  | (k, v) :: rest => if i = k then some v else map_find i rest

/-- The assignment `P[i] = v`: the entry of key `i` gets the value `v`, a new
entry is put at its place in the order of the keys. -/
def map_assign (i : Int) (v : Nat) : List (Int × Nat) → List (Int × Nat)
  | [] => [(i, v)]
  | (k, w) :: rest =>
      if i < k then (i, v) :: (k, w) :: rest
      else if i = k then (k, v) :: rest
      else (k, w) :: map_assign i v rest

/-- The members of `TricubicBsplineTwistSet` the two `add` touch: the map `P`
(line 172) and, for the grid `bKnots` (TricubicBsplineGrid.h is not among the
sources), the calls `bKnots.Init(data, *curP)` made so far, each with the
data set and the storage it fills. -/
structure TricubicBsplineTwistSet where
  P : List (Int × Nat)
  Init_calls : List (Nat × Nat)

namespace TricubicBsplineTwistSet

/-- Lines 84-92, `add(int i, const StorageType& data, StorageType* curP)`. -/
def add_data (s : TricubicBsplineTwistSet) (i : Int) (data curP : Nat) :
    TricubicBsplineTwistSet :=
  match map_find i s.P with
  | none => { P := map_assign i curP s.P, Init_calls := s.Init_calls ++ [(data, curP)] }
  | some _ => s

/-- Lines 94-101, `add(int i, StorageType* curP)`. -/
def add (s : TricubicBsplineTwistSet) (i : Int) (curP : Nat) : TricubicBsplineTwistSet :=
  match map_find i s.P with
  | none => { s with P := map_assign i curP s.P }
  | some _ => s

end TricubicBsplineTwistSet

/-! ## QMCOptimize::run, the number of walkers, lines 100-102 and 133-139 -/

/-- Conversion of an integer to `int` (32 bit, two's complement). -/
def to_int (x : Int) : Int := (x + 2 ^ 31) % 2 ^ 32 - 2 ^ 31

/-- A call `run` makes on the walker configuration `W` to restore the number
of walkers. -/
inductive WalkerCall where
  | destroyWalkers (n : Int)
  | createWalkers (n : Int)
deriving DecidableEq

/-- The walker configuration `W` as `run` uses it (MCWalkerConfiguration is not
among the sources): the number of active walkers that `destroyWalkers(n)` and
`createWalkers(n)` leave, given the number before the call. -/
structure MCWalkerConfiguration where
  destroyWalkers : Nat → Int → Nat
  createWalkers : Nat → Int → Nat

/-- A walker configuration in which `destroyWalkers(n)` removes `n` walkers and
`createWalkers(n)` adds `n` walkers. -/
def counting_walkers : MCWalkerConfiguration :=
  { destroyWalkers := fun active n => active - n.toNat,
    createWalkers := fun active n => active + n.toNat }

/-- The walker bookkeeping of `QMCOptimize::run`. `after_samples` is
`W.getActiveWalkers()` when `generateSamples()` has returned (line 102),
`after_optimize` is `W.getActiveWalkers()` at line 133, after the
optimisation. The result is the call of lines 136-139 and the number of
active walkers it leaves. -/
def run (W : MCWalkerConfiguration) (after_samples after_optimize : Nat) :
    List WalkerCall × Nat :=
  let NumOfVMCWalkers : Int := to_int after_samples
  let nw_removed : Int := to_int (after_optimize - NumOfVMCWalkers)
  if nw_removed > 0 then
    ([WalkerCall.destroyWalkers nw_removed], W.destroyWalkers after_optimize nw_removed)
  else
    ([WalkerCall.createWalkers (to_int (-nw_removed))],
     W.createWalkers after_optimize (to_int (-nw_removed)))

/-! ## QMCOptimize::put, the choice of the solver, lines 189-206 and 224-253 -/

/-- A child element of the input node: its name and what
`xmlGetProp(cur, "method")` returns for it. -/
structure xmlNode where
  name : String
  method : Option String

/-- Whether `s` begins with `pat`. -/
def starts_with : List Char → List Char → Bool
  | [], _ => true
  | _ :: _, [] => false
  | p :: ps, c :: cs => decide (p = c) && starts_with ps cs

/-- The search `std::string::find(pat)` from the position `pos` on, `s` being
the rest of the string from there: the first position at which `pat` occurs,
`none` for `npos`. -/
def find_from (pat : List Char) : List Char → Nat → Option Nat
  | [], pos => if starts_with pat [] then some pos else none
  | c :: cs, pos => if starts_with pat (c :: cs) then some pos else find_from pat cs (pos + 1)

/-- The test `cname.find("optimize") < cname.size()` of line 196; `npos` is the
largest `size_t` and below no size. -/
def names_optimize (cname : String) : Bool :=
  match find_from ("optimize").toList cname.toList 0 with
  | some pos => decide (pos < cname.length)
  | none => false

/-- The loop of lines 189-206 on the children, for the member `optmethod`:
what `optmethod` is when the loop ends. -/
def scan_children (optmethod : String) : List xmlNode → String
  | [] => optmethod
  | cur :: rest =>
      if cur.name = ("mcwalkerset") then scan_children optmethod rest
      else if names_optimize cur.name then
        match cur.method with
        | some att => scan_children att rest
        | none => scan_children optmethod rest
      else scan_children optmethod rest

/-- The three solver classes `put` can create. -/
inductive Solver where
  | DampedDynamics
  | testDerivOptimization
  | CGOptimization
deriving DecidableEq

/-- What lines 224-253 do about `optSolver`: it exists already and is kept, a
solver is created, or `APP_ABORT` ends the program. -/
inductive SolverChoice where
  | kept
  | created (solver : Solver)
  | abort
deriving DecidableEq

/-- Lines 226-251, the chain of comparisons of `optmethod` that is run when
`optSolver == 0`. -/
def choose_solver (optmethod : String) : SolverChoice :=
  if optmethod = ("anneal") then SolverChoice.created Solver.DampedDynamics
  else if optmethod = ("flexOpt") ∨ optmethod = ("flexopt") ∨ optmethod = ("macopt") then
    SolverChoice.abort
  else if optmethod = ("BFGS") then SolverChoice.abort
  else if optmethod = ("test") then SolverChoice.created Solver.testDerivOptimization
  else SolverChoice.created Solver.CGOptimization

/-- Line 61 of the constructor: `optmethod = "cg"`. -/
def default_optmethod : String := ("cg")

/-- The solver part of `QMCOptimize::put`: `optmethod` on entry, whether
`optSolver` is set on entry, and the children of the node; the result is
`optmethod` after the loop and what happens about the solver. -/
def put (optmethod : String) (optSolver_set : Bool) (children : List xmlNode) :
    String × SolverChoice :=
  let method := scan_children optmethod children
  if optSolver_set then (method, SolverChoice.kept) else (method, choose_solver method)

end qmcplusplus

namespace shm

open shm_ptr_with_raw_ptr_dispatch

/-- C1: for two pointers that each hold a window, `p == q` is true exactly when
the windows have the same base address and the offsets agree; `p != q` is the
negation of `p == q`; a copy of `p`, and any pointer made from the same window
with the same offset, compares equal to `p`. -/
theorem C1_op_eq_iff_same_base_and_offset
    (p q : shm_ptr_with_raw_ptr_dispatch) (wp wq : shared_window)
    (hp : p.wSP_ = some wp) (hq : q.wSP_ = some wq) :
    (op_eq p q = some true ↔ (wp.base = wq.base ∧ p.offset = q.offset))
    ∧ (op_eq p q = some false ↔ ¬ (wp.base = wq.base ∧ p.offset = q.offset))
    ∧ (∃ b, op_eq p q = some b ∧ op_ne p q = some (!b))
    ∧ op_eq (copy_construct p) p = some true
    ∧ op_eq p (copy_construct p) = some true
    ∧ (∀ off : Int, op_eq { wSP_ := some wp, offset := off }
                        { wSP_ := some wp, offset := off } = some true)
    ∧ (∀ r : shm_ptr_with_raw_ptr_dispatch, r.wSP_ = some wp → r.offset = p.offset →
          op_eq r p = some true ∧ op_eq p r = some true) := by
  refine ⟨?_, ?_, ?_, ?_, ?_, ?_, ?_⟩
  · simp [op_eq, hp, hq]
  · simp only [op_eq, hp, hq]
    by_cases h1 : wp.base = wq.base <;> by_cases h2 : p.offset = q.offset <;>
      simp [h1, h2]
  · refine ⟨decide (wp.base = wq.base) && decide (p.offset = q.offset), ?_, ?_⟩ <;>
      simp [op_ne, op_eq, hp, hq]
  · simp [op_eq, copy_construct, hp]
  · simp [op_eq, copy_construct, hp]
  · intro off
    simp [op_eq]
  · intro r hr hoff
    simp [op_eq, hp, hr, hoff]

/-- Witness for C1 on a window based at 100 and a pointer at offset 3. -/
theorem C1_op_eq_iff_same_base_and_offset_witness :
    op_eq { wSP_ := some ⟨100, true⟩, offset := 3 }
          (copy_construct { wSP_ := some ⟨100, true⟩, offset := 3 }) = some true :=
  (C1_op_eq_iff_same_base_and_offset
    { wSP_ := some ⟨100, true⟩, offset := 3 }
    (copy_construct { wSP_ := some ⟨100, true⟩, offset := 3 })
    ⟨100, true⟩ ⟨100, true⟩ rfl rfl).1.mpr ⟨rfl, rfl⟩

/-! ### Traces of the standard loops -/

theorem std_copy_n_trace {α : Type} (n : Nat) :
    ∀ (first result : Int) (s : Proc α),
      ∃ work : List (Event α), (std_copy_n first n result s).trace = s.trace ++ work ∧
        (∀ e ∈ work, e.isWrite = true) ∧ work.length = n := by
  induction n with
  | zero => intro first result s; exact ⟨[], by simp [std_copy_n], by simp, rfl⟩
  | succ k ih =>
    intro first result s
    obtain ⟨work, h1, h2, h3⟩ := ih (first + 1) (result + 1) (s.assign result (s.mem first))
    refine ⟨Event.assign result (s.mem first) :: work, ?_, ?_, ?_⟩
    · rw [std_copy_n, h1]; simp [Proc.assign]
    · intro e he
      rcases List.mem_cons.mp he with rfl | he
      · rfl
      · exact h2 e he
    · simp [h3]

theorem std_uninitialized_copy_n_trace {α : Type} (n : Nat) :
    ∀ (first result : Int) (s : Proc α),
      ∃ work : List (Event α),
        (std_uninitialized_copy_n first n result s).trace = s.trace ++ work ∧
        (∀ e ∈ work, e.isWrite = true) ∧ work.length = n := by
  induction n with
  | zero => intro first result s; exact ⟨[], by simp [std_uninitialized_copy_n], by simp, rfl⟩
  | succ k ih =>
    intro first result s
    obtain ⟨work, h1, h2, h3⟩ := ih (first + 1) (result + 1) (s.construct result (s.mem first))
    refine ⟨Event.construct result (s.mem first) :: work, ?_, ?_, ?_⟩
    · rw [std_uninitialized_copy_n, h1]; simp [Proc.construct]
    · intro e he
      rcases List.mem_cons.mp he with rfl | he
      · rfl
      · exact h2 e he
    · simp [h3]

/-- A fence, `k` writes, a fence: exactly two fences were added. -/
theorem fences_added_of_fence_writes_fence {α : Type} (before after : List (Event α))
    (k : Nat) (h : fence_writes_fence before after k) : fences_added before after = 2 := by
  obtain ⟨w1, w2, work, rfl, hw, -⟩ := h
  have h0 : List.countP Event.isFence work = 0 := by
    rw [List.countP_eq_zero]
    intro e he
    have := hw e he
    cases e <;> simp_all [Event.isWrite, Event.isFence]
  simp [fences_added, List.countP_cons, List.countP_append, h0, Event.isFence]

/-- The trace of a process that fences, lets `body` run when it is the root,
and fences again. -/
theorem fence_writes_fence_of_body {α : Type} (s s2 : Proc α) (w : shared_window)
    (k : Nat) (work : List (Event α))
    (h2 : s2.trace = (s.fence w).trace ++ work)
    (hw : ∀ e ∈ work, e.isWrite = true) (hk : work.length = k) :
    fence_writes_fence s.trace (s2.fence w).trace k := by
  refine ⟨w, w, work, ?_, hw, hk⟩
  simp [Proc.fence, h2]

/-! ### The range operations on pointers that hold a window -/

theorem copy_n_eq {α : Type} (src : Int) (n : Nat) (d : shm_ptr_with_raw_ptr_dispatch)
    (wd : shared_window) (s : Proc α) (hd : d.wSP_ = some wd) :
    copy_n src n d s = some (op_add d n,
      (if wd.root then std_copy_n src n (wd.base + d.offset) (s.fence wd)
       else s.fence wd).fence wd) := by
  cases hr : wd.root <;> simp [copy_n, hd, hr, to_address]

theorem uninitialized_copy_n_eq {α : Type} (f d : shm_ptr_with_raw_ptr_dispatch) (n : Nat)
    (wf wd : shared_window) (s : Proc α) (hn : n ≠ 0)
    (hf : f.wSP_ = some wf) (hd : d.wSP_ = some wd) :
    uninitialized_copy_n f n d s = some (op_add d n,
      (if wd.root then
         std_uninitialized_copy_n (wf.base + f.offset) n (wd.base + d.offset) (s.fence wf)
       else s.fence wf).fence wf) := by
  cases hr : wd.root <;> simp [uninitialized_copy_n, hn, hf, hd, hr, to_address]

theorem copy_eq {α : Type} (first last d : shm_ptr_with_raw_ptr_dispatch)
    (wf wl wd : shared_window) (s : Proc α)
    (hf : first.wSP_ = some wf) (hl : last.wSP_ = some wl) (hd : d.wSP_ = some wd)
    (hne : ¬ (wf.base = wl.base ∧ first.offset = last.offset)) :
    copy first last d s = some (op_add d (last.offset - first.offset),
      (if wd.root then
         std_copy (wf.base + first.offset) (last.offset - first.offset)
           (wd.base + d.offset) (s.fence wf)
       else s.fence wf).fence wf) := by
  have he : op_eq first last = some false := by
    simp only [op_eq, hf, hl]
    by_cases h1 : wf.base = wl.base <;> by_cases h2 : first.offset = last.offset <;>
      simp_all
  cases hr : wd.root <;> simp [copy, he, hf, hd, hr, to_address, op_diff]

theorem uninitialized_copy_eq {α : Type} (f l d : shm_ptr_with_raw_ptr_dispatch)
    (wf wl wd : shared_window) (s : Proc α)
    (hf : f.wSP_ = some wf) (hl : l.wSP_ = some wl) (hd : d.wSP_ = some wd)
    (hne : ¬ (wf.base = wl.base ∧ f.offset = l.offset)) :
    uninitialized_copy f l d s = some (op_add d (l.offset - f.offset),
      (if wd.root then
         std_uninitialized_copy (wf.base + f.offset) (l.offset - f.offset)
           (wd.base + d.offset) (s.fence wf)
       else s.fence wf).fence wf) := by
  have he : op_eq f l = some false := by
    simp only [op_eq, hf, hl]
    by_cases h1 : wf.base = wl.base <;> by_cases h2 : f.offset = l.offset <;>
      simp_all
  cases hr : wd.root <;> simp [uninitialized_copy, he, hf, hd, hr, to_address, op_diff]

/-- C2: `copy_n`, `copy`, `uninitialized_copy_n` and `uninitialized_copy` on a
non-empty range (`n > 0`, respectively `first` before `last` in one window)
return, and the events each process adds are a fence, then the element copies
(`n`, respectively `last - first`, of them on the root and none elsewhere),
then a fence: exactly two fences, with every copy between them. -/
theorem C2_copy_operations_fence_copy_fence {α : Type} (s : Proc α)
    (src : Int) (n : Nat) (first last d : shm_ptr_with_raw_ptr_dispatch)
    (wf wd : shared_window) (hn : 0 < n)
    (hf : first.wSP_ = some wf) (hl : last.wSP_ = some wf)
    (hlt : first.offset < last.offset) (hd : d.wSP_ = some wd) :
    (∃ r, copy_n src n d s = some r ∧
        fence_writes_fence s.trace r.2.trace (if wd.root then n else 0) ∧
        fences_added s.trace r.2.trace = 2) ∧
    (∃ r, copy first last d s = some r ∧
        fence_writes_fence s.trace r.2.trace
          (if wd.root then (last.offset - first.offset).toNat else 0) ∧
        fences_added s.trace r.2.trace = 2) ∧
    (∃ r, uninitialized_copy_n first n d s = some r ∧
        fence_writes_fence s.trace r.2.trace (if wd.root then n else 0) ∧
        fences_added s.trace r.2.trace = 2) ∧
    (∃ r, uninitialized_copy first last d s = some r ∧
        fence_writes_fence s.trace r.2.trace
          (if wd.root then (last.offset - first.offset).toNat else 0) ∧
        fences_added s.trace r.2.trace = 2) := by
  have hne : ¬ (wf.base = wf.base ∧ first.offset = last.offset) := by
    intro h; omega
  have hn0 : n ≠ 0 := by omega
  refine ⟨?_, ?_, ?_, ?_⟩
  · refine ⟨_, copy_n_eq src n d wd s hd, ?_⟩
    have key : fence_writes_fence s.trace
        ((if wd.root then std_copy_n src n (wd.base + d.offset) (s.fence wd)
          else s.fence wd).fence wd).trace (if wd.root then n else 0) := by
      cases hr : wd.root
      · exact fence_writes_fence_of_body s _ wd 0 [] (by simp) (by simp) rfl
      · obtain ⟨work, h1, h2, h3⟩ := std_copy_n_trace n src (wd.base + d.offset) (s.fence wd)
        exact fence_writes_fence_of_body s _ wd n work (by simpa using h1) h2 h3
    exact ⟨key, fences_added_of_fence_writes_fence _ _ _ key⟩
  · refine ⟨_, copy_eq first last d wf wf wd s hf hl hd hne, ?_⟩
    have key : fence_writes_fence s.trace
        ((if wd.root then std_copy (wf.base + first.offset) (last.offset - first.offset)
            (wd.base + d.offset) (s.fence wf)
          else s.fence wf).fence wf).trace
        (if wd.root then (last.offset - first.offset).toNat else 0) := by
      cases hr : wd.root
      · exact fence_writes_fence_of_body s _ wf 0 [] (by simp) (by simp) rfl
      · obtain ⟨work, h1, h2, h3⟩ := std_copy_n_trace (last.offset - first.offset).toNat
          (wf.base + first.offset) (wd.base + d.offset) (s.fence wf)
        exact fence_writes_fence_of_body s _ wf _ work (by simpa [std_copy] using h1) h2 h3
    exact ⟨key, fences_added_of_fence_writes_fence _ _ _ key⟩
  · refine ⟨_, uninitialized_copy_n_eq first d n wf wd s hn0 hf hd, ?_⟩
    have key : fence_writes_fence s.trace
        ((if wd.root then std_uninitialized_copy_n (wf.base + first.offset) n
            (wd.base + d.offset) (s.fence wf)
          else s.fence wf).fence wf).trace (if wd.root then n else 0) := by
      cases hr : wd.root
      · exact fence_writes_fence_of_body s _ wf 0 [] (by simp) (by simp) rfl
      · obtain ⟨work, h1, h2, h3⟩ := std_uninitialized_copy_n_trace n
          (wf.base + first.offset) (wd.base + d.offset) (s.fence wf)
        exact fence_writes_fence_of_body s _ wf n work (by simpa using h1) h2 h3
    exact ⟨key, fences_added_of_fence_writes_fence _ _ _ key⟩
  · refine ⟨_, uninitialized_copy_eq first last d wf wf wd s hf hl hd hne, ?_⟩
    have key : fence_writes_fence s.trace
        ((if wd.root then std_uninitialized_copy (wf.base + first.offset)
            (last.offset - first.offset) (wd.base + d.offset) (s.fence wf)
          else s.fence wf).fence wf).trace
        (if wd.root then (last.offset - first.offset).toNat else 0) := by
      cases hr : wd.root
      · exact fence_writes_fence_of_body s _ wf 0 [] (by simp) (by simp) rfl
      · obtain ⟨work, h1, h2, h3⟩ := std_uninitialized_copy_n_trace
          (last.offset - first.offset).toNat
          (wf.base + first.offset) (wd.base + d.offset) (s.fence wf)
        exact fence_writes_fence_of_body s _ wf _ work
          (by simpa [std_uninitialized_copy] using h1) h2 h3
    exact ⟨key, fences_added_of_fence_writes_fence _ _ _ key⟩

/-- Witness for C2: the root copies one element from address 0 to the pointer
at offset 3 and from offset 3 to offset 5 of its window. -/
theorem C2_copy_operations_fence_copy_fence_witness :
    (∃ r, copy_n 0 1 sample_root_ptr sample_proc = some r ∧
        fence_writes_fence sample_proc.trace r.2.trace 1 ∧
        fences_added sample_proc.trace r.2.trace = 2) ∧
    (∃ r, copy sample_root_ptr (op_add sample_root_ptr 2) sample_root_ptr sample_proc = some r ∧
        fence_writes_fence sample_proc.trace r.2.trace 2 ∧
        fences_added sample_proc.trace r.2.trace = 2) :=
  have h := C2_copy_operations_fence_copy_fence sample_proc 0 1 sample_root_ptr
    (op_add sample_root_ptr 2) sample_root_ptr sample_root_window sample_root_window
    (by decide) rfl rfl (by decide) rfl
  ⟨h.1, h.2.1⟩

/-- C3 (the code departs from the claim): on the root, `uninitialized_fill_n`
and `destroy_n` with `n = 1` do their work FIRST and execute both fences after
it; a non-root process executes the two fences only. -/
theorem C3_root_work_precedes_both_fences :
    (uninitialized_fill_n sample_root_ptr 1 (7 : Int) sample_proc).map (fun r => r.2.trace)
      = some [Event.construct 103 7, Event.fence sample_root_window,
              Event.fence sample_root_window] ∧
    (destroy_n sample_root_ptr 1 sample_proc).map (fun r => r.2.trace)
      = some [Event.destroy 103, Event.fence sample_root_window,
              Event.fence sample_root_window] ∧
    (uninitialized_fill_n sample_other_ptr 1 (7 : Int) sample_proc).map (fun r => r.2.trace)
      = some [Event.fence sample_other_window, Event.fence sample_other_window] := by
  decide

/-- C4 (the code departs from the claim): `destroy_n(first, 2)` on the root
calls the destructor of the element at `first` (address 103) twice and never
that of the element at `first + 1` (address 104). -/
theorem C4_destroy_n_destroys_first_element_n_times :
    (destroy_n sample_root_ptr 2 sample_proc).map (fun r => r.2.trace)
      = some [Event.destroy 103, Event.destroy 103, Event.fence sample_root_window,
              Event.fence sample_root_window] ∧
    (destroy_n sample_root_ptr 2 sample_proc).map
      (fun r => r.2.trace.countP (Event.isDestroyOf 103)) = some 2 ∧
    (destroy_n sample_root_ptr 2 sample_proc).map
      (fun r => r.2.trace.countP (Event.isDestroyOf 104)) = some 0 := by
  decide

/-! ### Processes that are not the root, and empty ranges -/

theorem only_fences_refl {α : Type} (s : Proc α) : only_fences s s :=
  ⟨rfl, [], by simp, by simp⟩

theorem only_fences_fence_fence {α : Type} (s : Proc α) (w : shared_window) :
    only_fences s ((s.fence w).fence w) :=
  ⟨rfl, [Event.fence w, Event.fence w], by simp [Proc.fence], by simp [Event.isFence]⟩

theorem copy_of_eq {α : Type} (first last d : shm_ptr_with_raw_ptr_dispatch) (s : Proc α)
    (h : op_eq first last = some true) : copy first last d s = some (d, s) := by
  simp [copy, h]

theorem uninitialized_copy_of_eq {α : Type} (f l d : shm_ptr_with_raw_ptr_dispatch)
    (s : Proc α) (h : op_eq f l = some true) : uninitialized_copy f l d s = some (d, s) := by
  simp [uninitialized_copy, h]

theorem op_eq_of_same {first last : shm_ptr_with_raw_ptr_dispatch} {wf wl : shared_window}
    (hf : first.wSP_ = some wf) (hl : last.wSP_ = some wl)
    (h : wf.base = wl.base ∧ first.offset = last.offset) : op_eq first last = some true := by
  simp [op_eq, hf, hl, h.1, h.2]

/-- C6: in each of the eight range operations a process that is not the root
of the group of the window (the window of the destination for the copies)
returns having changed no element and executed nothing but fences, for every
count `n` and every range. -/
theorem C6_non_root_performs_no_element_work {α : Type} (s : Proc α) (T0 val : α)
    (src : Int) (n : Nat) (p first last : shm_ptr_with_raw_ptr_dispatch)
    (w wf wl : shared_window)
    (hp : p.wSP_ = some w) (hroot : w.root = false)
    (hf : first.wSP_ = some wf) (hl : last.wSP_ = some wl) :
    (∃ r, uninitialized_fill_n p n val s = some r ∧ only_fences s r.2) ∧
    (∃ r, destroy_n p n s = some r ∧ only_fences s r.2) ∧
    (∃ r, copy_n src n p s = some r ∧ only_fences s r.2) ∧
    (∃ r, copy first last p s = some r ∧ only_fences s r.2) ∧
    (∃ r, uninitialized_copy_n first n p s = some r ∧ only_fences s r.2) ∧
    (∃ r, uninitialized_copy first last p s = some r ∧ only_fences s r.2) ∧
    (∃ r, uninitialized_default_construct_n T0 p n s = some r ∧ only_fences s r.2) ∧
    (∃ r, uninitialized_value_construct_n T0 p n s = some r ∧ only_fences s r.2) := by
  refine ⟨?_, ?_, ?_, ?_, ?_, ?_, ?_, ?_⟩
  · by_cases hn : n = 0
    · exact ⟨(p, s), by simp [uninitialized_fill_n, hn], only_fences_refl s⟩
    · exact ⟨(op_add p n, (s.fence w).fence w),
        by simp [uninitialized_fill_n, hn, hp, hroot], only_fences_fence_fence s w⟩
  · by_cases hn : n = 0
    · exact ⟨(p, s), by simp [destroy_n, hn], only_fences_refl s⟩
    · exact ⟨(op_add p n, (s.fence w).fence w),
        by simp [destroy_n, hn, hp, hroot], only_fences_fence_fence s w⟩
  · refine ⟨_, copy_n_eq src n p w s hp, ?_⟩
    simpa [hroot] using only_fences_fence_fence s w
  · by_cases he : wf.base = wl.base ∧ first.offset = last.offset
    · exact ⟨(p, s), copy_of_eq first last p s (op_eq_of_same hf hl he), only_fences_refl s⟩
    · refine ⟨_, copy_eq first last p wf wl w s hf hl hp he, ?_⟩
      simpa [hroot] using only_fences_fence_fence s wf
  · by_cases hn : n = 0
    · exact ⟨(p, s), by simp [uninitialized_copy_n, hn], only_fences_refl s⟩
    · refine ⟨_, uninitialized_copy_n_eq first p n wf w s hn hf hp, ?_⟩
      simpa [hroot] using only_fences_fence_fence s wf
  · by_cases he : wf.base = wl.base ∧ first.offset = last.offset
    · exact ⟨(p, s), uninitialized_copy_of_eq first last p s (op_eq_of_same hf hl he),
        only_fences_refl s⟩
    · refine ⟨_, uninitialized_copy_eq first last p wf wl w s hf hl hp he, ?_⟩
      simpa [hroot] using only_fences_fence_fence s wf
  · by_cases hn : n = 0
    · exact ⟨(Returned.ptr p, s), by simp [uninitialized_default_construct_n, hn],
        only_fences_refl s⟩
    · exact ⟨(Returned.ptr (op_add p n), (s.fence w).fence w),
        by simp [uninitialized_default_construct_n, hn, hp, hroot],
        only_fences_fence_fence s w⟩
  · by_cases hn : n = 0
    · exact ⟨(Returned.ptr p, s), by simp [uninitialized_value_construct_n, hn],
        only_fences_refl s⟩
    · exact ⟨(Returned.ptr (op_add p n), (s.fence w).fence w),
        by simp [uninitialized_value_construct_n, hn, hp, hroot],
        only_fences_fence_fence s w⟩

/-- Witness for C6: a non-root process filling two elements at offset 3. -/
theorem C6_non_root_performs_no_element_work_witness :
    ∃ r, uninitialized_fill_n sample_other_ptr 2 (7 : Int) sample_proc = some r ∧
      only_fences sample_proc r.2 :=
  (C6_non_root_performs_no_element_work sample_proc 0 7 0 2 sample_other_ptr
    sample_root_ptr sample_root_ptr sample_other_window sample_root_window
    sample_root_window rfl rfl rfl rfl).1

/-- C7: with `n == 0` the operations `uninitialized_fill_n`, `destroy_n`,
`uninitialized_copy_n`, `uninitialized_default_construct_n` and
`uninitialized_value_construct_n`, and with `first == last` the operations
`copy` and `uninitialized_copy`, return the pointer they were given
(`first`, `f`, respectively the destination) and leave the process as it was:
no fence is executed and no element is touched. -/
theorem C7_empty_range_is_a_no_op {α : Type} (s : Proc α) (T0 val : α)
    (first last d : shm_ptr_with_raw_ptr_dispatch) :
    uninitialized_fill_n first 0 val s = some (first, s) ∧
    destroy_n first 0 s = some (first, s) ∧
    uninitialized_copy_n first 0 d s = some (d, s) ∧
    uninitialized_default_construct_n T0 first 0 s = some (Returned.ptr first, s) ∧
    uninitialized_value_construct_n T0 first 0 s = some (Returned.ptr first, s) ∧
    (op_eq first last = some true → copy first last d s = some (d, s)) ∧
    (op_eq first last = some true → uninitialized_copy first last d s = some (d, s)) := by
  refine ⟨?_, ?_, ?_, ?_, ?_, ?_, ?_⟩
  · simp [uninitialized_fill_n]
  · simp [destroy_n]
  · simp [uninitialized_copy_n]
  · simp [uninitialized_default_construct_n]
  · simp [uninitialized_value_construct_n]
  · exact copy_of_eq first last d s
  · exact uninitialized_copy_of_eq first last d s

/-- Witness for C7: `copy` from a pointer to an equal pointer. -/
theorem C7_empty_range_is_a_no_op_witness :
    copy sample_root_ptr (copy_construct sample_root_ptr) sample_other_ptr sample_proc
      = some (sample_other_ptr, sample_proc) :=
  (C7_empty_range_is_a_no_op sample_proc 0 0 sample_root_ptr
    (copy_construct sample_root_ptr) sample_other_ptr).2.2.2.2.2.1 (by decide)

/-- C8 (the code departs from the claim): `copy_n(first, 0, d_first)` has no
guard for `n == 0`; it executes both fences, on the root and elsewhere, copies
nothing and returns `d_first + 0`. -/
theorem C8_copy_n_zero_executes_two_fences :
    (copy_n 0 0 sample_root_ptr sample_proc).map (fun r => (r.1, r.2.trace))
      = some (sample_root_ptr,
              [Event.fence sample_root_window, Event.fence sample_root_window]) ∧
    (copy_n 0 0 sample_other_ptr sample_proc).map (fun r => (r.1, r.2.trace))
      = some (sample_other_ptr,
              [Event.fence sample_other_window, Event.fence sample_other_window]) ∧
    (copy_n 0 0 sample_root_ptr sample_proc).map
      (fun r => fences_added sample_proc.trace r.2.trace) = some 2 := by
  decide

/-! ### `uninitialized_copy_n` run by a whole group -/

theorem std_uninitialized_copy_n_mem {α : Type} (n : Nat) :
    ∀ (src dst : Int) (s : Proc α), (dst ≤ src ∨ src + n ≤ dst) →
      ∀ x : Int, (std_uninitialized_copy_n src n dst s).mem x =
        if dst ≤ x ∧ x < dst + n then s.mem (src + (x - dst)) else s.mem x := by
  induction n with
  | zero =>
    intro src dst s _ x
    have h0 : ¬ (dst ≤ x ∧ x < dst + ((0 : Nat) : Int)) := by omega
    rw [if_neg h0, std_uninitialized_copy_n]
  | succ k ih =>
    intro src dst s h x
    rw [std_uninitialized_copy_n, ih (src + 1) (dst + 1) _ (by omega) x]
    by_cases hx : x = dst
    · subst hx
      have h1 : ¬ (x + 1 ≤ x ∧ x < x + 1 + (k : Int)) := by omega
      have h2 : (x ≤ x ∧ x < x + ((k + 1 : Nat) : Int)) := by omega
      rw [if_neg h1, if_pos h2]
      simp [Proc.construct]
    · by_cases hin : dst + 1 ≤ x ∧ x < dst + 1 + (k : Int)
      · have h2 : (dst ≤ x ∧ x < dst + ((k + 1 : Nat) : Int)) := by omega
        have h3 : src + 1 + (x - (dst + 1)) ≠ dst := by omega
        have h4 : src + 1 + (x - (dst + 1)) = src + (x - dst) := by omega
        rw [if_pos hin, if_pos h2]
        simp only [Proc.construct]
        rw [Function.update_noteq h3, h4]
      · have h2 : ¬ (dst ≤ x ∧ x < dst + ((k + 1 : Nat) : Int)) := by omega
        rw [if_neg hin, if_neg h2]
        simp only [Proc.construct]
        rw [Function.update_noteq hx]

/-- One process of the group: the call returns `d + n`; the root leaves the
copied contents, any other process leaves the contents as they were. -/
theorem uninitialized_copy_n_held_by {α : Type} (mem : Int → α)
    (f d : shm_ptr_with_raw_ptr_dispatch) (wf wd : shared_window) (n : Nat) (r : Bool)
    (hf : f.wSP_ = some wf) (hd : d.wSP_ = some wd)
    (hsep : wd.base + d.offset ≤ wf.base + f.offset ∨
            wf.base + f.offset + n ≤ wd.base + d.offset) :
    ∃ s1 : Proc α,
      uninitialized_copy_n (held_by r f) n (held_by r d) { mem := mem, trace := [] }
        = some (op_add (held_by r d) n, s1) ∧
      s1.mem = if r = true then
          (fun x => if wd.base + d.offset ≤ x ∧ x < wd.base + d.offset + n
                    then mem (wf.base + f.offset + (x - (wd.base + d.offset))) else mem x)
        else mem := by
  by_cases hn : n = 0
  · subst hn
    refine ⟨{ mem := mem, trace := [] }, ?_, ?_⟩
    · simp [uninitialized_copy_n, op_add, op_add_assign, copy_construct]
    · cases r
      · simp
      · funext x
        have h0 : ¬ (wd.base + d.offset ≤ x ∧ x < wd.base + d.offset + ((0 : Nat) : Int)) := by
          omega
        simp only [if_true, if_neg h0]
  · have hf1 : (held_by r f).wSP_ = some { wf with root := r } := by simp [held_by, hf]
    have hd1 : (held_by r d).wSP_ = some { wd with root := r } := by simp [held_by, hd]
    refine ⟨_, uninitialized_copy_n_eq (held_by r f) (held_by r d) n _ _ _ hn hf1 hd1, ?_⟩
    cases r
    · simp [Proc.fence]
    · funext x
      have := std_uninitialized_copy_n_mem n (wf.base + f.offset) (wd.base + d.offset)
        (Proc.fence { mem := mem, trace := [] } { wf with root := true }) hsep x
      simpa [Proc.fence, held_by] using this

theorem uninitialized_copy_n_on_all_others {α : Type}
    (f d : shm_ptr_with_raw_ptr_dispatch) (wf wd : shared_window) (n : Nat)
    (hf : f.wSP_ = some wf) (hd : d.wSP_ = some wd)
    (hsep : wd.base + d.offset ≤ wf.base + f.offset ∨
            wf.base + f.offset + n ≤ wd.base + d.offset) (k : Nat) :
    ∀ mem : Int → α, uninitialized_copy_n_on_all f n d (List.replicate k false) mem
      = some (List.replicate k (op_add (held_by false d) n), mem) := by
  induction k with
  | zero => intro mem; rfl
  | succ k ih =>
    intro mem
    obtain ⟨s1, h1, h2⟩ := uninitialized_copy_n_held_by mem f d wf wd n false hf hd hsep
    have h3 : s1.mem = mem := by simpa using h2
    simp [List.replicate_succ, uninitialized_copy_n_on_all, h1, h3, ih]

/-- C9: let every process of a group (any number of non-root processes around
the one root) call `uninitialized_copy_n(f, n, d)` on pointers that hold
windows, the source range not being overwritten before it is read (the
destination starts at or before the source, or after its end). Once all calls
have returned, the `n` elements at `d` are the `n` source elements as they
were, every element outside `[d, d+n)` is unchanged, and each call returned
`d + n`; `n` may be `0` or `1`. -/
theorem C9_uninitialized_copy_n_round_trip {α : Type} (mem : Int → α)
    (f d : shm_ptr_with_raw_ptr_dispatch) (wf wd : shared_window) (n : Nat)
    (others_before others_after : Nat)
    (hf : f.wSP_ = some wf) (hd : d.wSP_ = some wd)
    (hsep : wd.base + d.offset ≤ wf.base + f.offset ∨
            wf.base + f.offset + n ≤ wd.base + d.offset) :
    ∃ (ps : List shm_ptr_with_raw_ptr_dispatch) (m : Int → α),
      uninitialized_copy_n_on_all f n d
        (List.replicate others_before false ++ true :: List.replicate others_after false) mem
        = some (ps, m) ∧
      (∀ i : Nat, i < n → m (wd.base + d.offset + i) = mem (wf.base + f.offset + i)) ∧
      (∀ x : Int, ¬ (wd.base + d.offset ≤ x ∧ x < wd.base + d.offset + n) → m x = mem x) ∧
      ps.length = others_before + 1 + others_after ∧
      (∀ p ∈ ps, ∃ r : Bool, p = op_add (held_by r d) n) := by
  have hroot : ∀ mem0 : Int → α, ∃ m : Int → α,
      uninitialized_copy_n_on_all f n d (true :: List.replicate others_after false) mem0
        = some (op_add (held_by true d) n ::
                  List.replicate others_after (op_add (held_by false d) n), m) ∧
      m = (fun x => if wd.base + d.offset ≤ x ∧ x < wd.base + d.offset + n
                    then mem0 (wf.base + f.offset + (x - (wd.base + d.offset))) else mem0 x) := by
    intro mem0
    obtain ⟨s1, h1, h2⟩ := uninitialized_copy_n_held_by mem0 f d wf wd n true hf hd hsep
    refine ⟨s1.mem, ?_, by simpa using h2⟩
    simp [uninitialized_copy_n_on_all, h1,
      uninitialized_copy_n_on_all_others f d wf wd n hf hd hsep others_after]
  have hall : ∀ (k : Nat) (mem0 : Int → α), ∃ m : Int → α,
      uninitialized_copy_n_on_all f n d
        (List.replicate k false ++ true :: List.replicate others_after false) mem0
        = some (List.replicate k (op_add (held_by false d) n) ++
                  op_add (held_by true d) n ::
                  List.replicate others_after (op_add (held_by false d) n), m) ∧
      m = (fun x => if wd.base + d.offset ≤ x ∧ x < wd.base + d.offset + n
                    then mem0 (wf.base + f.offset + (x - (wd.base + d.offset))) else mem0 x) := by
    intro k
    induction k with
    | zero => intro mem0; simpa using hroot mem0
    | succ k ih =>
      intro mem0
      obtain ⟨s1, h1, h2⟩ := uninitialized_copy_n_held_by mem0 f d wf wd n false hf hd hsep
      have h3 : s1.mem = mem0 := by simpa using h2
      obtain ⟨m, hm1, hm2⟩ := ih mem0
      refine ⟨m, ?_, hm2⟩
      simp [List.replicate_succ, uninitialized_copy_n_on_all, h1, h3, hm1]
  obtain ⟨m, hm1, hm2⟩ := hall others_before mem
  refine ⟨_, m, hm1, ?_, ?_, ?_, ?_⟩
  · intro i hi
    have hin : wd.base + d.offset ≤ wd.base + d.offset + (i : Int) ∧
        wd.base + d.offset + (i : Int) < wd.base + d.offset + n := by omega
    have hidx : wf.base + f.offset + (wd.base + d.offset + (i : Int) - (wd.base + d.offset))
        = wf.base + f.offset + i := by omega
    rw [hm2]
    simp only [if_pos hin, hidx]
  · intro x hx
    rw [hm2]
    simp only [if_neg hx]
  · simp; omega
  · intro p hp
    simp only [List.mem_append, List.mem_cons, List.mem_replicate] at hp
    rcases hp with ⟨-, rfl⟩ | rfl | ⟨-, rfl⟩
    · exact ⟨false, rfl⟩
    · exact ⟨true, rfl⟩
    · exact ⟨false, rfl⟩

/-- Witness for C9: a group of three (root in the middle) copies the two
elements at offsets 13 and 14 of the window to offsets 3 and 4. -/
theorem C9_uninitialized_copy_n_round_trip_witness :
    ∃ (ps : List shm_ptr_with_raw_ptr_dispatch) (m : Int → Int),
      uninitialized_copy_n_on_all (op_add sample_root_ptr 10) 2 sample_root_ptr
        (List.replicate 1 false ++ true :: List.replicate 1 false) sample_proc.mem
        = some (ps, m) ∧
      (∀ i : Nat, i < 2 → m (100 + 3 + i) = sample_proc.mem (100 + 13 + i)) ∧
      (∀ x : Int, ¬ (100 + 3 ≤ x ∧ x < 100 + 3 + (2 : Nat)) → m x = sample_proc.mem x) ∧
      ps.length = 1 + 1 + 1 ∧
      (∀ p ∈ ps, ∃ r : Bool, p = op_add (held_by r sample_root_ptr) 2) :=
  C9_uninitialized_copy_n_round_trip sample_proc.mem (op_add sample_root_ptr 10)
    sample_root_ptr sample_root_window sample_root_window 2 1 1 rfl rfl (by decide)

/-- C10: for `n > 0`, `allocate(n)` makes exactly one window-creation request
on its communicator, for `n` elements when the caller is the root of the
communicator and for `0` elements otherwise, and the pointer it returns holds
the window that request created, at offset 0. -/
theorem C10_allocate_requests_n_on_root_only
    (a : allocator_shm_ptr_with_raw_ptr_dispatch) (n : Nat) (hn : 0 < n) :
    (a.allocate n).2.filter CommCall.isCreation
        = [CommCall.make_shared_window (if a.comm_.root = true then n else 0)] ∧
    (a.comm_.root = true →
        (a.allocate n).2.filter CommCall.isCreation = [CommCall.make_shared_window n] ∧
        (a.allocate n).1.wSP_ = some (a.comm_.make_shared_window n)) ∧
    (a.comm_.root = false →
        (a.allocate n).2.filter CommCall.isCreation = [CommCall.make_shared_window 0] ∧
        (a.allocate n).1.wSP_ = some (a.comm_.make_shared_window 0)) ∧
    (a.allocate n).1.offset = 0 := by
  have hn0 : n ≠ 0 := by omega
  refine ⟨?_, ?_, ?_, ?_⟩
  · simp [allocator_shm_ptr_with_raw_ptr_dispatch.allocate, hn0, CommCall.isCreation]
  · intro hr
    simp [allocator_shm_ptr_with_raw_ptr_dispatch.allocate, hn0, hr, CommCall.isCreation]
  · intro hr
    simp [allocator_shm_ptr_with_raw_ptr_dispatch.allocate, hn0, hr, CommCall.isCreation]
  · simp [allocator_shm_ptr_with_raw_ptr_dispatch.allocate, hn0, null]

/-- Witness for C10: the root of a communicator allocates 4 elements. -/
theorem C10_allocate_requests_n_on_root_only_witness :
    (allocator_shm_ptr_with_raw_ptr_dispatch.allocate
        { comm_ := { root := true, make_shared_window := fun _ => sample_root_window } }
        4).2.filter CommCall.isCreation = [CommCall.make_shared_window 4] :=
  (C10_allocate_requests_n_on_root_only
    { comm_ := { root := true, make_shared_window := fun _ => sample_root_window } }
    4 (by decide)).1

/-! ### Allocation of an empty window, release, null pointers and arithmetic -/

/-- C11: `allocate(0)` on any process, root of the communicator or not, makes
one window-creation request, for exactly 0 elements, and does not call
`comm_.root()` (the sizing expression `comm_.root()?n:0` of the `n > 0` path
is not evaluated); the pointer it returns holds the window so created, has
offset 0 and is not null. -/
theorem C11_allocate_zero_requests_empty_window
    (a : allocator_shm_ptr_with_raw_ptr_dispatch) :
    (a.allocate 0).2 = [CommCall.make_shared_window 0] ∧
    CommCall.root ∉ (a.allocate 0).2 ∧
    (a.allocate 0).1.wSP_ = some (a.comm_.make_shared_window 0) ∧
    (a.allocate 0).1.offset = 0 ∧
    op_bool (a.allocate 0).1 = true := by
  simp [allocator_shm_ptr_with_raw_ptr_dispatch.allocate, null, op_bool]

/-- C12 (the code departs from the claim): `deallocate(ptr, n)` resets the
handle of its by-value parameter only. For every pointer and every state of
the reference counts, the pointer of the caller is unchanged by the call and
every window has as many local owners after the call as before; for a sole
owner of a window the count stays 1 and the pointer still holds the window. -/
theorem C12_deallocate_keeps_the_reference_count
    (a : allocator_shm_ptr_with_raw_ptr_dispatch) (refs : Refs)
    (ptr : shm_ptr_with_raw_ptr_dispatch) (n : Nat) :
    (a.deallocate refs ptr n).1 = ptr ∧
    (∀ w : shared_window, (a.deallocate refs ptr n).2.use_count w = refs.use_count w) ∧
    (a.deallocate sample_refs sample_root_ptr 4).2.use_count sample_root_window = 1 ∧
    (a.deallocate sample_refs sample_root_ptr 4).1.wSP_ = some sample_root_window := by
  refine ⟨rfl, ?_, ?_, rfl⟩
  · intro w
    cases h : ptr.wSP_ with
    | none =>
      simp [allocator_shm_ptr_with_raw_ptr_dispatch.deallocate, copy_construct, h,
        Refs.acquire, Refs.release]
    | some w0 =>
      by_cases hw : w = w0
      · subst hw
        simp [allocator_shm_ptr_with_raw_ptr_dispatch.deallocate, copy_construct, h,
          Refs.acquire, Refs.release]
      · simp [allocator_shm_ptr_with_raw_ptr_dispatch.deallocate, copy_construct, h,
          Refs.acquire, Refs.release, Function.update_noteq hw]
  · simp [allocator_shm_ptr_with_raw_ptr_dispatch.deallocate, copy_construct,
      sample_root_ptr, sample_refs, Refs.acquire, Refs.release]

/-- C13: for every typed pointer `p`, `p == nullptr` is true exactly when `p`
holds no window handle, `p != nullptr` is its negation, the conversion to
`bool` is true exactly when `p` holds a handle; the default (and `nullptr`)
constructed pointer holds no handle, has offset 0 and equals `nullptr`. -/
theorem C13_typed_pointer_null_comparison (p : shm_ptr_with_raw_ptr_dispatch) :
    (op_eq_nullptr p = true ↔ p.wSP_ = none) ∧
    op_ne_nullptr p = !(op_eq_nullptr p) ∧
    (op_ne_nullptr p = true ↔ ∃ w, p.wSP_ = some w) ∧
    (op_bool p = true ↔ ∃ w, p.wSP_ = some w) ∧
    null.wSP_ = none ∧ null.offset = 0 ∧
    op_eq_nullptr null = true ∧ op_ne_nullptr null = false ∧ op_bool null = false := by
  refine ⟨?_, rfl, ?_, ?_, rfl, rfl, rfl, rfl, rfl⟩
  · cases h : p.wSP_ <;> simp [op_eq_nullptr, h]
  · cases h : p.wSP_ <;> simp [op_ne_nullptr, op_eq_nullptr, h]
  · cases h : p.wSP_ <;> simp [op_bool, h]

/-- C14 (the code departs from the claim): in the `void` and `const void`
specialisations `p == nullptr` returns `(bool)wSP_`. A default-constructed
pointer, which holds no window, compares UNEQUAL to `nullptr` (and
`p != nullptr` is true for it); a pointer that holds a window compares EQUAL
to `nullptr`. -/
theorem C14_void_pointer_null_comparison_is_inverted :
    shm_ptr_with_raw_ptr_dispatch_void.op_eq_nullptr
      shm_ptr_with_raw_ptr_dispatch_void.null = false ∧
    shm_ptr_with_raw_ptr_dispatch_void.op_ne_nullptr
      shm_ptr_with_raw_ptr_dispatch_void.null = true ∧
    shm_ptr_with_raw_ptr_dispatch_const_void.op_eq_nullptr
      shm_ptr_with_raw_ptr_dispatch_const_void.null = false ∧
    shm_ptr_with_raw_ptr_dispatch_const_void.op_ne_nullptr
      shm_ptr_with_raw_ptr_dispatch_const_void.null = true ∧
    shm_ptr_with_raw_ptr_dispatch_void.op_eq_nullptr
      { wSP_ := some sample_root_window, offset := 0 } = true ∧
    shm_ptr_with_raw_ptr_dispatch_const_void.op_eq_nullptr
      { wSP_ := some sample_root_window, offset := 0 } = true := by
  decide

/-- C15 (the code departs from the claim): `p = nullptr` on a typed pointer
returns the object as it is. A pointer that holds a window still holds it
after the assignment and `p == nullptr` is false; the `void` and `const void`
specialisations do reset the handle. -/
theorem C15_typed_assign_nullptr_keeps_the_handle :
    assign_nullptr sample_root_ptr = sample_root_ptr ∧
    (assign_nullptr sample_root_ptr).wSP_ = some sample_root_window ∧
    op_eq_nullptr (assign_nullptr sample_root_ptr) = false ∧
    (shm_ptr_with_raw_ptr_dispatch_void.assign_nullptr
      { wSP_ := some sample_root_window, offset := 3 }).wSP_ = none ∧
    (shm_ptr_with_raw_ptr_dispatch_const_void.assign_nullptr
      { wSP_ := some sample_root_window, offset := 3 }).wSP_ = none := by
  decide

/-- C16: for a pointer `p` that holds a window and every integer `d`,
`(p + d) - d == p` is true and the difference `(p + d) - p` is `d`. -/
theorem C16_add_then_subtract_round_trip (p : shm_ptr_with_raw_ptr_dispatch)
    (w : shared_window) (d : Int) (hp : p.wSP_ = some w) :
    op_eq (op_sub (op_add p d) d) p = some true ∧
    op_sub (op_add p d) d = p ∧
    op_diff (op_add p d) p = d := by
  refine ⟨?_, ?_, ?_⟩
  · simp [op_eq, op_sub, op_add, op_sub_assign, op_add_assign, copy_construct, hp]
  · cases p
    simp [op_sub, op_add, op_sub_assign, op_add_assign, copy_construct]
  · simp [op_diff, op_add, op_add_assign, copy_construct]

/-- Witness for C16: the pointer at offset 3 moved by -7 and back. -/
theorem C16_add_then_subtract_round_trip_witness :
    op_eq (op_sub (op_add sample_root_ptr (-7)) (-7)) sample_root_ptr = some true ∧
    op_sub (op_add sample_root_ptr (-7)) (-7) = sample_root_ptr ∧
    op_diff (op_add sample_root_ptr (-7)) sample_root_ptr = -7 :=
  C16_add_then_subtract_round_trip sample_root_ptr sample_root_window (-7) rfl

/-- C17: pointer arithmetic is integer arithmetic on the offset and leaves the
handle alone, for every pointer (null or not) and every integer `d`: `p + d`
and `p += d` keep the handle and give offset `p.offset + d`, `p - d` and
`p -= d` give `p.offset - d`, `++p` and `--p` change the offset by one, and
`p - q` is `p.offset - q.offset`. The operators are total functions of the two
members: none reads the window. -/
theorem C17_arithmetic_acts_on_the_offset_only (p q : shm_ptr_with_raw_ptr_dispatch)
    (d : Int) :
    op_add p d = { wSP_ := p.wSP_, offset := p.offset + d } ∧
    op_add_assign p d = { wSP_ := p.wSP_, offset := p.offset + d } ∧
    op_sub p d = { wSP_ := p.wSP_, offset := p.offset - d } ∧
    op_sub_assign p d = { wSP_ := p.wSP_, offset := p.offset - d } ∧
    op_pre_inc p = { wSP_ := p.wSP_, offset := p.offset + 1 } ∧
    op_pre_dec p = { wSP_ := p.wSP_, offset := p.offset - 1 } ∧
    op_diff p q = p.offset - q.offset ∧
    op_add null d = { wSP_ := none, offset := d } ∧
    op_diff (op_add null d) null = d := by
  refine ⟨rfl, rfl, rfl, rfl, rfl, rfl, rfl, ?_, ?_⟩
  · simp [op_add, op_add_assign, copy_construct, null]
  · simp [op_diff, op_add, op_add_assign, copy_construct, null]

end shm

namespace qmc_cuda

/-! ### Status checks of the dispatch primitives -/

theorem status_checked_checked_call {α : Type} (env : Nat → Outcome) (c : Call α)
    (success : Nat) (what : String) :
    status_checked env success (Run.start.checked_call env c success what) := by
  unfold status_checked Run.checked_call Run.start
  cases h : env 0 with
  | returned status =>
    by_cases hs : success = status
    · subst hs; simp [h]
    · have hs1 : status ≠ success := fun e => hs e.symm
      simp [h, hs, hs1]
  | raised => simp [h]

/-- C18: each of the three `copy` overloads, `scal`, `axpy`, `gemv`, `gemm`,
`geam` and `set1D` makes exactly one external call whatever that call does
(there is no second attempt), throws a runtime error of its own exactly when
the call returned a status other than success, and returns normally when the
call returned success. -/
theorem C18_status_checked_primitives {α : Type} (env : Nat → Outcome) (sizeofT : Nat)
    (Atrans Btrans : Char) (n M N K incx incy lda ldb ldc host : Int) (alpha beta : α)
    (x y A B C : cuda_gpu_ptr) :
    status_checked env CUBLAS_STATUS_SUCCESS (copy_device_to_device α env n x incx y incy) ∧
    status_checked env cudaSuccess (copy_host_to_device α env sizeofT n host incx y incy) ∧
    status_checked env cudaSuccess (copy_device_to_host α env sizeofT n x incx host incy) ∧
    status_checked env CUBLAS_STATUS_SUCCESS (scal env n alpha x incx) ∧
    status_checked env CUBLAS_STATUS_SUCCESS (axpy env n alpha x incx y incy) ∧
    status_checked env CUBLAS_STATUS_SUCCESS
      (gemv env Atrans M N alpha A lda x incx beta y incy) ∧
    status_checked env CUBLAS_STATUS_SUCCESS
      (gemm env Atrans Btrans M N K alpha A lda B ldb beta C ldc) ∧
    status_checked env CUBLAS_STATUS_SUCCESS
      (geam env Atrans Btrans M N alpha A lda beta B ldb C ldc) ∧
    status_checked env CUBLAS_STATUS_SUCCESS (set1D env sizeofT n alpha x incx) :=
  ⟨status_checked_checked_call env _ _ _, status_checked_checked_call env _ _ _,
   status_checked_checked_call env _ _ _, status_checked_checked_call env _ _ _,
   status_checked_checked_call env _ _ _, status_checked_checked_call env _ _ _,
   status_checked_checked_call env _ _ _, status_checked_checked_call env _ _ _,
   status_checked_checked_call env _ _ _⟩

/-- C19 (the code departs from the claim): `gemmStridedBatched` returns
normally when its vendor call returns the status 13, and `gemmBatched`
(batch of one) returns normally when its first `cudaMalloc` (call 3) returns
the status 2, when its first `cudaMemcpy` (call 6) returns the status 1 and
when the batched product (call 9) returns the status 13; in each case all
sixteen calls of `gemmBatched` are made. -/
theorem C19_batched_products_drop_the_status :
    (gemmStridedBatched (env_status_at 0 13) 'N' 'N' 2 2 2 (1 : Int) (sample_ptr 0) 2 4
        (sample_ptr 64) 2 4 0 (sample_ptr 128) 2 4 1).result = Result.ok ∧
    (gemmBatched (env_status_at 3 2) 'N' 'N' 2 2 2 (1 : Int) [sample_ptr 0] 2
        [sample_ptr 64] 2 0 [sample_ptr 128] 2 1).result = Result.ok ∧
    (gemmBatched (env_status_at 6 1) 'N' 'N' 2 2 2 (1 : Int) [sample_ptr 0] 2
        [sample_ptr 64] 2 0 [sample_ptr 128] 2 1).result = Result.ok ∧
    (gemmBatched (env_status_at 9 13) 'N' 'N' 2 2 2 (1 : Int) [sample_ptr 0] 2
        [sample_ptr 64] 2 0 [sample_ptr 128] 2 1).result = Result.ok ∧
    (gemmBatched (env_status_at 3 2) 'N' 'N' 2 2 2 (1 : Int) [sample_ptr 0] 2
        [sample_ptr 64] 2 0 [sample_ptr 128] 2 1).calls.length = 16 := by
  decide

/-- C20 (the code departs from the claim): when the batched product (call 9)
of `gemmBatched` leaves by an exception, the function is left at that call:
each of the six staging arrays has been acquired once and none has been
released. When the second `new` (call 1) throws, `A_h` has been acquired and
is not released. When every call returns, each array is acquired once and
released once. -/
theorem C20_gemmBatched_leaks_staging_on_exception :
    (gemmBatched (env_raise_at 9) 'N' 'N' 2 2 2 (1 : Int) [sample_ptr 0] 2
        [sample_ptr 64] 2 0 [sample_ptr 128] 2 1).result = Result.propagated 9 ∧
    ([Staging.A_h, Staging.B_h, Staging.C_h, Staging.A_d, Staging.B_d, Staging.C_d].map
      (fun v => (acquisitions v (gemmBatched (env_raise_at 9) 'N' 'N' 2 2 2 (1 : Int)
          [sample_ptr 0] 2 [sample_ptr 64] 2 0 [sample_ptr 128] 2 1).calls,
        releases v (gemmBatched (env_raise_at 9) 'N' 'N' 2 2 2 (1 : Int)
          [sample_ptr 0] 2 [sample_ptr 64] 2 0 [sample_ptr 128] 2 1).calls)))
      = [(1, 0), (1, 0), (1, 0), (1, 0), (1, 0), (1, 0)] ∧
    (gemmBatched (env_raise_at 1) 'N' 'N' 2 2 2 (1 : Int) [sample_ptr 0] 2
        [sample_ptr 64] 2 0 [sample_ptr 128] 2 1).result = Result.propagated 1 ∧
    releases Staging.A_h (gemmBatched (env_raise_at 1) 'N' 'N' 2 2 2 (1 : Int)
        [sample_ptr 0] 2 [sample_ptr 64] 2 0 [sample_ptr 128] 2 1).calls = 0 ∧
    ([Staging.A_h, Staging.B_h, Staging.C_h, Staging.A_d, Staging.B_d, Staging.C_d].map
      (fun v => (acquisitions v (gemmBatched env_success 'N' 'N' 2 2 2 (1 : Int)
          [sample_ptr 0] 2 [sample_ptr 64] 2 0 [sample_ptr 128] 2 1).calls,
        releases v (gemmBatched env_success 'N' 'N' 2 2 2 (1 : Int)
          [sample_ptr 0] 2 [sample_ptr 64] 2 0 [sample_ptr 128] 2 1).calls)))
      = [(1, 1), (1, 1), (1, 1), (1, 1), (1, 1), (1, 1)] := by
  decide

end qmc_cuda

namespace qmc_cuda

/-! ### The calls of `gemmBatched` -/

theorem addresses_eq_take (P : List cuda_gpu_ptr) :
    ∀ k : Nat, k ≤ P.length → addresses P k = some ((P.take k).map to_address) := by
  intro k
  induction k with
  | zero => intro _; simp [addresses]
  | succ k ih =>
    intro hk
    have hlt : k < P.length := hk
    have hget : P.get? k = some (P.get ⟨k, hlt⟩) := List.get?_eq_get hlt
    have htake : P.take (k + 1) = P.take k ++ [P.get ⟨k, hlt⟩] := by
      rw [List.take_succ, List.getElem?_eq_getElem hlt]
      rfl
    rw [addresses, ih (Nat.le_of_lt hlt), hget, htake, List.map_append]
    rfl

theorem addresses_length (P : List cuda_gpu_ptr) :
    addresses P P.length = some (P.map to_address) := by
  simpa using addresses_eq_take P P.length (Nat.le_refl _)

theorem Run.call_of_returned {α : Type} (env : Nat → Outcome)
    (henv : ∀ k, ∃ status, env k = Outcome.returned status) (calls : List (Call α))
    (c : Call α) :
    Run.call env { calls := calls, result := Result.ok } c
      = { calls := calls ++ [c], result := Result.ok } := by
  obtain ⟨status, h⟩ := henv calls.length
  simp [Run.call, h]

theorem Run.call_result_ne_undefined {α : Type} (env : Nat → Outcome) (r : Run α)
    (c : Call α) (h : r.result ≠ Result.undefined) :
    (Run.call env r c).result ≠ Result.undefined := by
  unfold Run.call
  cases hr : r.result with
  | ok => cases env r.calls.length <;> simp
  | runtime_error what => simp [hr]
  | propagated k => simp [hr]
  | undefined => exact absurd hr h

/-- C21: for `batchSize >= 1` and arrays `A`, `B`, `C` of `batchSize` device
pointers, `gemmBatched` reads no array past its end whatever the external
calls do, and when the calls return it makes exactly these calls in this
order: the three `new`, the three `cudaMalloc`, the three `cudaMemcpy` to the
device whose host arrays hold `to_address(A[i])`, `to_address(B[i])`,
`to_address(C[i])` at every index `i < batchSize` and have length
`batchSize`, then the one batched product with the handle of `A[0]` and the
three device arrays, then the releases. -/
theorem C21_gemmBatched_marshals_the_addresses {α : Type} (env : Nat → Outcome)
    (Atrans Btrans : Char) (M N K lda ldb ldc : Int) (alpha beta : α)
    (A B C : List cuda_gpu_ptr) (batchSize : Nat)
    (hbatch : 1 ≤ batchSize)
    (hA : A.length = batchSize) (hB : B.length = batchSize) (hC : C.length = batchSize) :
    (gemmBatched env Atrans Btrans M N K alpha A lda B ldb beta C ldc batchSize).result
      ≠ Result.undefined ∧
    (∃ A0 : cuda_gpu_ptr, A.get? 0 = some A0 ∧
     ((∀ k, ∃ status, env k = Outcome.returned status) →
      gemmBatched env Atrans Btrans M N K alpha A lda B ldb beta C ldc batchSize =
        { calls :=
            [Call.new_array Staging.A_h batchSize,
             Call.new_array Staging.B_h batchSize,
             Call.new_array Staging.C_h batchSize,
             Call.cudaMalloc Staging.A_d (to_size_t (batchSize * sizeof_pointer)),
             Call.cudaMalloc Staging.B_d (to_size_t (batchSize * sizeof_pointer)),
             Call.cudaMalloc Staging.C_d (to_size_t (batchSize * sizeof_pointer)),
             Call.cudaMemcpy Staging.A_d Staging.A_h (A.map to_address)
               (to_size_t (batchSize * sizeof_pointer)) cudaMemcpyKind.cudaMemcpyHostToDevice,
             Call.cudaMemcpy Staging.B_d Staging.B_h (B.map to_address)
               (to_size_t (batchSize * sizeof_pointer)) cudaMemcpyKind.cudaMemcpyHostToDevice,
             Call.cudaMemcpy Staging.C_d Staging.C_h (C.map to_address)
               (to_size_t (batchSize * sizeof_pointer)) cudaMemcpyKind.cudaMemcpyHostToDevice,
             Call.cublas_gemmBatched A0.handles.cublas_handle Atrans Btrans M N K alpha
               Staging.A_d lda Staging.B_d ldb beta Staging.C_d ldc batchSize,
             Call.cudaFree Staging.A_d, Call.cudaFree Staging.B_d, Call.cudaFree Staging.C_d,
             Call.delete_array Staging.A_h, Call.delete_array Staging.B_h,
             Call.delete_array Staging.C_h],
          result := Result.ok })) ∧
    (A.map to_address).length = batchSize ∧
    (B.map to_address).length = batchSize ∧
    (C.map to_address).length = batchSize ∧
    (∀ i : Nat, i < batchSize →
      (A.map to_address).get? i = (A.get? i).map to_address ∧
      (B.map to_address).get? i = (B.get? i).map to_address ∧
      (C.map to_address).get? i = (C.get? i).map to_address ∧
      (A.get? i).isSome = true ∧ (B.get? i).isSome = true ∧ (C.get? i).isSome = true) := by
  have hAa : addresses A batchSize = some (A.map to_address) := hA ▸ addresses_length A
  have hBa : addresses B batchSize = some (B.map to_address) := hB ▸ addresses_length B
  have hCa : addresses C batchSize = some (C.map to_address) := hC ▸ addresses_length C
  have h0 : 0 < A.length := by omega
  have hA0 : A.get? 0 = some (A.get ⟨0, h0⟩) := List.get?_eq_get h0
  refine ⟨?_, ⟨A.get ⟨0, h0⟩, hA0, ?_⟩, by simp [hA], by simp [hB], by simp [hC], ?_⟩
  · simp only [gemmBatched, hAa, hBa, hCa, hA0]
    repeat apply Run.call_result_ne_undefined
    simp [Run.start]
  · intro henv
    simp only [gemmBatched, hAa, hBa, hCa, hA0, Run.start, Run.call_of_returned env henv]
    simp
  · intro i hi
    refine ⟨by simp, by simp, by simp, ?_, ?_, ?_⟩
    · rw [List.get?_eq_get (hA ▸ hi : i < A.length)]; rfl
    · rw [List.get?_eq_get (hB ▸ hi : i < B.length)]; rfl
    · rw [List.get?_eq_get (hC ▸ hi : i < C.length)]; rfl

/-- Witness for C21: a batch of two. -/
theorem C21_gemmBatched_marshals_the_addresses_witness :
    (gemmBatched env_success 'N' 'T' 2 2 2 (1 : Int) [sample_ptr 0, sample_ptr 8] 2
        [sample_ptr 64, sample_ptr 72] 2 0 [sample_ptr 128, sample_ptr 136] 2 2).result
      ≠ Result.undefined :=
  (C21_gemmBatched_marshals_the_addresses env_success 'N' 'T' 2 2 2 2 2 2 (1 : Int) 0
    [sample_ptr 0, sample_ptr 8] [sample_ptr 64, sample_ptr 72]
    [sample_ptr 128, sample_ptr 136] 2 (by decide) rfl rfl rfl).1

end qmc_cuda

namespace qmc_cuda

/-! ### The strided transfers between host and device -/

theorem copy_row_apply {β : Type} (srcMem : Int → β) (src dst : Int) (width : Nat) :
    ∀ (m : Int → β) (a : Int), copy_row srcMem src dst width m a =
      if dst ≤ a ∧ a < dst + width then srcMem (src + (a - dst)) else m a := by
  induction width with
  | zero =>
    intro m a
    have h0 : ¬ (dst ≤ a ∧ a < dst + ((0 : Nat) : Int)) := by omega
    rw [if_neg h0, copy_row]
  | succ w ih =>
    intro m a
    rw [copy_row]
    by_cases ha : a = dst + w
    · subst ha
      have h1 : dst ≤ dst + (w : Int) ∧ dst + (w : Int) < dst + ((w + 1 : Nat) : Int) := by omega
      have h2 : src + (dst + (w : Int) - dst) = src + w := by omega
      rw [if_pos h1, Function.update_same, h2]
    · rw [Function.update_noteq ha, ih]
      by_cases hin : dst ≤ a ∧ a < dst + (w : Int)
      · have h1 : dst ≤ a ∧ a < dst + ((w + 1 : Nat) : Int) := by omega
        rw [if_pos hin, if_pos h1]
      · have h1 : ¬ (dst ≤ a ∧ a < dst + ((w + 1 : Nat) : Int)) := by omega
        rw [if_neg hin, if_neg h1]

theorem copy_rows_outside {β : Type} (srcMem : Int → β) (dst dpitch src spitch : Int)
    (width : Nat) (a : Int) :
    ∀ (rows : Nat) (m : Int → β),
      (∀ r : Nat, r < rows → ¬ (dst + r * dpitch ≤ a ∧ a < dst + r * dpitch + width)) →
      copy_rows srcMem dst dpitch src spitch width rows m a = m a := by
  intro rows
  induction rows with
  | zero => intro m _; rfl
  | succ k ih =>
    intro m h
    rw [copy_rows, copy_row_apply, if_neg (h k (Nat.lt_succ_self k))]
    exact ih m (fun r hr => h r (Nat.lt_succ_of_lt hr))

theorem copy_rows_inside {β : Type} (srcMem : Int → β) (dst dpitch src spitch : Int)
    (width : Nat) (hpitch : (width : Int) ≤ dpitch) (r b : Nat) (hb : b < width) :
    ∀ (rows : Nat) (m : Int → β), r < rows →
      copy_rows srcMem dst dpitch src spitch width rows m (dst + r * dpitch + b)
        = srcMem (src + r * spitch + b) := by
  intro rows
  induction rows with
  | zero => intro m h; omega
  | succ k ih =>
    intro m hr
    rw [copy_rows, copy_row_apply]
    by_cases hrk : r = k
    · subst hrk
      have h1 : dst + (r : Int) * dpitch ≤ dst + r * dpitch + b ∧
          dst + (r : Int) * dpitch + b < dst + r * dpitch + width := by omega
      have h2 : src + (r : Int) * spitch + (dst + r * dpitch + b - (dst + r * dpitch))
          = src + r * spitch + b := by omega
      rw [if_pos h1, h2]
    · have hlt : r < k := by omega
      have hmul : ((r : Int) + 1) * dpitch ≤ (k : Int) * dpitch :=
        Int.mul_le_mul_of_nonneg_right (by omega) (by omega)
      have hexp : ((r : Int) + 1) * dpitch = r * dpitch + dpitch := by ring
      have h1 : ¬ (dst + (k : Int) * dpitch ≤ dst + r * dpitch + b ∧
          dst + (r : Int) * dpitch + b < dst + k * dpitch + width) := by omega
      rw [if_neg h1]
      exact ih m hlt

/-- A successful 2-D transfer of `n` rows of one element (`S` bytes) with
pitches of `incy` and `incx` elements: element `i * incy` of the destination
receives element `i * incx` of the source, every other byte of the
destination is left as it was. -/
theorem cudaMemcpy2D_effect_elements {β : Type} (srcMem dstMem : Int → β)
    (S : Nat) (n incx incy src dst : Int) (hn : 0 ≤ n) (hy : 1 ≤ incy) :
    (∀ i b : Nat, (i : Int) < n → b < S →
      cudaMemcpy2D_effect srcMem dstMem dst (S * incy) src (S * incx) S n
          (dst + S * (i * incy) + b)
        = srcMem (src + S * (i * incx) + b)) ∧
    (∀ a : Int, (∀ i b : Nat, (i : Int) < n → b < S → a ≠ dst + S * (i * incy) + b) →
      cudaMemcpy2D_effect srcMem dstMem dst (S * incy) src (S * incx) S n a = dstMem a) := by
  have hpitch : ((S : Int).toNat : Int) ≤ (S : Int) * incy := by
    have : (S : Int) * 1 ≤ (S : Int) * incy :=
      Int.mul_le_mul_of_nonneg_left hy (by omega)
    simpa using this
  constructor
  · intro i b hi hb
    have hrow : i < n.toNat := by omega
    have hbw : b < (S : Int).toNat := by simpa using hb
    have h := copy_rows_inside srcMem dst ((S : Int) * incy) src ((S : Int) * incx)
      (S : Int).toNat hpitch i b hbw n.toNat dstMem hrow
    have e1 : dst + (S : Int) * ((i : Int) * incy) + b = dst + (i : Int) * ((S : Int) * incy) + b := by
      ring
    have e2 : src + (S : Int) * ((i : Int) * incx) + b = src + (i : Int) * ((S : Int) * incx) + b := by
      ring
    rw [cudaMemcpy2D_effect, e1, e2]
    exact h
  · intro a ha
    rw [cudaMemcpy2D_effect]
    apply copy_rows_outside
    intro r hr hin
    have hr' : (r : Int) < n := by omega
    have hb0 : 0 ≤ a - (dst + (r : Int) * ((S : Int) * incy)) := by omega
    have hbS : (a - (dst + (r : Int) * ((S : Int) * incy))).toNat < S := by
      have : ((S : Int).toNat : Int) = S := by simp
      omega
    apply ha r (a - (dst + (r : Int) * ((S : Int) * incy))).toNat hr' hbS
    have e1 : dst + (S : Int) * ((r : Int) * incy) = dst + (r : Int) * ((S : Int) * incy) := by
      ring
    rw [e1, Int.toNat_of_nonneg hb0]
    ring

end qmc_cuda

namespace qmc_cuda

theorem to_size_t_of_fits (x : Int) (h0 : 0 ≤ x) (h1 : x < 2 ^ 64) : to_size_t x = x :=
  Int.emod_eq_of_lt h0 h1

/-- C22: for `n >= 0` and strides `incx, incy >= 1` (sizes that fit `size_t`),
the host-to-device and the device-to-host `copy` each make one call, the 2-D
transfer `cudaMemcpy2D` with row width `sizeof(T)`, `n` rows, source pitch
`sizeof(T) * incx`, destination pitch `sizeof(T) * incy` and the direction of
the overload, whatever the call returns. When that transfer succeeds,
element `i * incy` of the destination holds element `i * incx` of the source
for every `0 <= i < n` (byte `b` of the one is byte `b` of the other) and
every other byte of the destination is unchanged. -/
theorem C22_host_device_copy_is_one_strided_transfer {α β : Type} (env : Nat → Outcome)
    (S : Nat) (n incx incy host : Int) (dev : cuda_gpu_ptr) (srcMem dstMem : Int → β)
    (hn : 0 ≤ n) (hx : 1 ≤ incx) (hy : 1 ≤ incy)
    (hfit : n < 2 ^ 64 ∧ (S : Int) < 2 ^ 64 ∧ (S : Int) * incx < 2 ^ 64 ∧
      (S : Int) * incy < 2 ^ 64) :
    (copy_host_to_device α env S n host incx dev incy).calls
      = [Call.cudaMemcpy2D (to_address dev) (S * incy) host (S * incx) S n
          cudaMemcpyKind.cudaMemcpyHostToDevice] ∧
    (copy_device_to_host α env S n dev incx host incy).calls
      = [Call.cudaMemcpy2D host (S * incy) (to_address dev) (S * incx) S n
          cudaMemcpyKind.cudaMemcpyDeviceToHost] ∧
    (∀ c ∈ (copy_host_to_device α env S n host incx dev incy).calls,
      (∀ i b : Nat, (i : Int) < n → b < S →
        Call.transfer srcMem dstMem c (to_address dev + S * (i * incy) + b)
          = srcMem (host + S * (i * incx) + b)) ∧
      (∀ a : Int,
        (∀ i b : Nat, (i : Int) < n → b < S → a ≠ to_address dev + S * (i * incy) + b) →
        Call.transfer srcMem dstMem c a = dstMem a)) ∧
    (∀ c ∈ (copy_device_to_host α env S n dev incx host incy).calls,
      (∀ i b : Nat, (i : Int) < n → b < S →
        Call.transfer srcMem dstMem c (host + S * (i * incy) + b)
          = srcMem (to_address dev + S * (i * incx) + b)) ∧
      (∀ a : Int,
        (∀ i b : Nat, (i : Int) < n → b < S → a ≠ host + S * (i * incy) + b) →
        Call.transfer srcMem dstMem c a = dstMem a)) := by
  obtain ⟨hn1, hS, hSx, hSy⟩ := hfit
  have hS0 : (0 : Int) ≤ (S : Int) := by omega
  have e1 : to_size_t ((S : Int) * incy) = (S : Int) * incy :=
    to_size_t_of_fits _ (Int.mul_nonneg hS0 (by omega)) hSy
  have e2 : to_size_t ((S : Int) * incx) = (S : Int) * incx :=
    to_size_t_of_fits _ (Int.mul_nonneg hS0 (by omega)) hSx
  have e3 : to_size_t (S : Int) = (S : Int) := to_size_t_of_fits _ hS0 hS
  have e4 : to_size_t n = n := to_size_t_of_fits _ hn hn1
  have hcalls1 : (copy_host_to_device α env S n host incx dev incy).calls
      = [Call.cudaMemcpy2D (to_address dev) (S * incy) host (S * incx) S n
          cudaMemcpyKind.cudaMemcpyHostToDevice] := by
    simp only [copy_host_to_device, Run.checked_call, Run.start, e1, e2, e3, e4]
    cases env ([] : List (Call α)).length <;> simp
  have hcalls2 : (copy_device_to_host α env S n dev incx host incy).calls
      = [Call.cudaMemcpy2D host (S * incy) (to_address dev) (S * incx) S n
          cudaMemcpyKind.cudaMemcpyDeviceToHost] := by
    simp only [copy_device_to_host, Run.checked_call, Run.start, e1, e2, e3, e4]
    cases env ([] : List (Call α)).length <;> simp
  refine ⟨hcalls1, hcalls2, ?_, ?_⟩
  · intro c hc
    rw [hcalls1, List.mem_singleton] at hc
    subst hc
    exact cudaMemcpy2D_effect_elements srcMem dstMem S n incx incy host (to_address dev) hn hy
  · intro c hc
    rw [hcalls2, List.mem_singleton] at hc
    subst hc
    exact cudaMemcpy2D_effect_elements srcMem dstMem S n incx incy (to_address dev) host hn hy

/-- Witness for C22: three elements of 8 bytes, read with stride 2 from the
host address 1000 and written with stride 3 to the device address 0. -/
theorem C22_host_device_copy_is_one_strided_transfer_witness :
    (copy_host_to_device Int env_success 8 3 1000 2 (sample_ptr 0) 3).calls
      = [Call.cudaMemcpy2D (to_address (sample_ptr 0)) (8 * 3) 1000 (8 * 2) 8 3
          cudaMemcpyKind.cudaMemcpyHostToDevice] :=
  (C22_host_device_copy_is_one_strided_transfer env_success 8 3 2 3 1000 (sample_ptr 0)
    (fun a => a) (fun _ => (0 : Int)) (by decide) (by decide) (by decide)
    ⟨by decide, by decide, by decide, by decide⟩).1

/-- C23: two handle bundles compare equal with `operator==` exactly when their
four handle pointers are the same (so exactly when the bundles are the same),
`operator!=` is the negation, and `operator==` is reflexive, symmetric and
transitive. -/
theorem C23_gpu_handles_equality (a b c : gpu_handles) :
    (gpu_handles.op_eq a b = true ↔
      (a.cublas_handle = b.cublas_handle ∧ a.cublasXt_handle = b.cublasXt_handle ∧
       a.cusolverDn_handle = b.cusolverDn_handle ∧ a.curand_generator = b.curand_generator)) ∧
    (gpu_handles.op_eq a b = true ↔ a = b) ∧
    gpu_handles.op_ne a b = !(gpu_handles.op_eq a b) ∧
    gpu_handles.op_eq a a = true ∧
    (gpu_handles.op_eq a b = true → gpu_handles.op_eq b a = true) ∧
    (gpu_handles.op_eq a b = true → gpu_handles.op_eq b c = true →
      gpu_handles.op_eq a c = true) := by
  have hiff : ∀ x y : gpu_handles, gpu_handles.op_eq x y = true ↔ x = y := by
    intro x y
    cases x; cases y
    simp [gpu_handles.op_eq, and_assoc]
  refine ⟨?_, hiff a b, rfl, (hiff a a).mpr rfl, ?_, ?_⟩
  · simp [gpu_handles.op_eq, and_assoc]
  · intro h; exact (hiff b a).mpr ((hiff a b).mp h).symm
  · intro h1 h2; exact (hiff a c).mpr (((hiff a b).mp h1).trans ((hiff b c).mp h2))

/-- Witness for C23: a bundle and a second bundle made of the same four
handles. -/
theorem C23_gpu_handles_equality_witness :
    gpu_handles.op_eq
      { cublas_handle := 1, cublasXt_handle := 2, cusolverDn_handle := 3, curand_generator := 4 }
      sample_handles = true :=
  (C23_gpu_handles_equality sample_handles
    { cublas_handle := 1, cublasXt_handle := 2, cusolverDn_handle := 3, curand_generator := 4 }
    sample_handles).2.2.2.2.1 (by decide)

/-- C25 (the code departs from the claim): `set1D(2, alpha, x, 1)` hands
`cublasSetVector` the host buffer `&alpha`, which holds ONE element, with
element count 2 and host stride 1: the transfer reads the host indices 0 and
1, and index 1 lies outside the buffer. With `n = 3` the indices 1 and 2 do,
with `n = 1` none does. -/
theorem C25_set1D_reads_past_the_single_host_value :
    (set1D env_success 8 2 (5 : Int) (sample_ptr 0) 1).calls
      = [Call.cublasSetVector 2 8 [5] 1 0 1] ∧
    cublasSetVector_source_indices 2 1 = [0, 1] ∧
    (set1D env_success 8 2 (5 : Int) (sample_ptr 0) 1).calls.map Call.reads_outside = [[1]] ∧
    (set1D env_success 8 3 (5 : Int) (sample_ptr 0) 2).calls.map Call.reads_outside
      = [[1, 2]] ∧
    (set1D env_success 8 1 (5 : Int) (sample_ptr 0) 1).calls.map Call.reads_outside = [[]] := by
  decide

theorem Run.call_start_not_runtime_error {α : Type} (env : Nat → Outcome) (c : Call α)
    (what : String) : (Run.call env Run.start c).result ≠ Result.runtime_error what := by
  simp only [Run.call, Run.start]
  split <;> simp

/-- C26: `axty` throws its runtime error exactly when `incx != 1` or
`incy != 1`, and then makes no call at all; with `incx == 1` and `incy == 1`
it makes one call, the launch of the kernel with `n`, `alpha` and the raw
addresses of `x` and `y`, and throws no runtime error. -/
theorem C26_axty_requires_unit_strides {α : Type} (env : Nat → Outcome) (n : Int) (alpha : α)
    (x y : cuda_gpu_ptr) (incx incy : Int) :
    ((∃ what, (axty env n alpha x incx y incy).result = Result.runtime_error what) ↔
      (incx ≠ 1 ∨ incy ≠ 1)) ∧
    ((incx ≠ 1 ∨ incy ≠ 1) → (axty env n alpha x incx y incy).calls = []) ∧
    ((incx = 1 ∧ incy = 1) →
      (axty env n alpha x incx y incy).calls
        = [Call.kernels_axty n alpha (to_address x) (to_address y)]) := by
  by_cases h : incx ≠ 1 ∨ incy ≠ 1
  · refine ⟨?_, ?_, ?_⟩
    · simp [axty, h]
    · intro _; simp [axty, h]
    · intro h1; rcases h with h | h
      · exact absurd h1.1 h
      · exact absurd h1.2 h
  · have hcalls : (axty env n alpha x incx y incy).calls
        = [Call.kernels_axty n alpha (to_address x) (to_address y)] := by
      simp only [axty, h, if_false, Run.call, Run.start]
      cases env ([] : List (Call α)).length <;> simp
    refine ⟨?_, fun h1 => absurd h1 h, fun _ => hcalls⟩
    constructor
    · rintro ⟨what, hw⟩
      simp only [axty, h, if_false] at hw
      exact absurd hw (Run.call_start_not_runtime_error env _ what)
    · intro h1; exact absurd h1 h

/-- Witness for C26: unit strides launch the kernel once, stride 2 launches
nothing. -/
theorem C26_axty_requires_unit_strides_witness :
    (axty env_success 4 (2 : Int) (sample_ptr 0) 1 (sample_ptr 64) 1).calls
        = [Call.kernels_axty 4 2 (to_address (sample_ptr 0)) (to_address (sample_ptr 64))] ∧
    (axty env_success 4 (2 : Int) (sample_ptr 0) 2 (sample_ptr 64) 1).calls = [] :=
  ⟨(C26_axty_requires_unit_strides env_success 4 (2 : Int) (sample_ptr 0) (sample_ptr 64)
      1 1).2.2 ⟨rfl, rfl⟩,
   (C26_axty_requires_unit_strides env_success 4 (2 : Int) (sample_ptr 0) (sample_ptr 64)
      2 1).2.1 (Or.inl (by decide))⟩

end qmc_cuda

namespace shm
open shm_ptr_with_raw_ptr_dispatch

/-- C24 (the code departs from the claim): on the root the destructor loop of
`destroy_n` counts `n` down to 0 before `return first + n`, so
`destroy_n(first, 2)` returns `first` (offset 3) on the root and `first + 2`
(offset 5) on a non-root process; only for `n = 0` do both return the same
pointer. -/
theorem C24_destroy_n_returns_first_on_the_root :
    (destroy_n sample_root_ptr 2 sample_proc).map (fun r => r.1) = some sample_root_ptr ∧
    (destroy_n sample_root_ptr 2 sample_proc).map (fun r => r.1.offset) = some 3 ∧
    (destroy_n sample_other_ptr 2 sample_proc).map (fun r => r.1.offset) = some 5 ∧
    (destroy_n sample_root_ptr 0 sample_proc).map (fun r => r.1.offset) = some 3 ∧
    (destroy_n sample_other_ptr 0 sample_proc).map (fun r => r.1.offset) = some 3 := by
  decide

end shm

namespace qmcplusplus

/-! ### The map of registered orbitals -/

theorem map_find_assign_same (i : Int) (v : Nat) (P : List (Int × Nat)) :
    map_find i (map_assign i v P) = some v := by
  induction P with
  | nil => simp [map_assign, map_find]
  | cons e rest ih =>
    obtain ⟨k, w⟩ := e
    by_cases h1 : i < k
    · simp [map_assign, map_find, h1]
    · by_cases h2 : i = k
      · simp [map_assign, map_find, h2]
      · simp [map_assign, map_find, h1, h2, ih]

theorem map_find_assign_other (i j : Int) (v : Nat) (hji : j ≠ i) (P : List (Int × Nat)) :
    map_find j (map_assign i v P) = map_find j P := by
  induction P with
  | nil => simp [map_assign, map_find, hji]
  | cons e rest ih =>
    obtain ⟨k, w⟩ := e
    by_cases h1 : i < k
    · simp [map_assign, map_find, h1, hji]
    · by_cases h2 : i = k
      · subst h2
        simp [map_assign, map_find, hji]
      · by_cases h3 : j = k
        · simp [map_assign, map_find, h1, h2, h3]
        · simp [map_assign, map_find, h1, h2, h3, ih]

theorem map_assign_length_of_absent (i : Int) (v : Nat) (P : List (Int × Nat))
    (h : map_find i P = none) : (map_assign i v P).length = P.length + 1 := by
  induction P with
  | nil => simp [map_assign]
  | cons e rest ih =>
    obtain ⟨k, w⟩ := e
    by_cases h2 : i = k
    · simp [map_find, h2] at h
    · have hrest : map_find i rest = none := by simpa [map_find, h2] using h
      by_cases h1 : i < k
      · simp [map_assign, h1]
      · simp [map_assign, h1, h2, ih hrest]

/-- C27: for both `add`, an index `i` that is not registered gets the mapping
`i -> curP`, the other indices keep theirs and the map grows by one (the
overload with data runs `Init(data, *curP)` once, the other runs no `Init`);
an index that is registered leaves the whole object unchanged, map and
`Init` calls. Hence a second `add` of the same index changes nothing, whatever
it is given (the first registration wins, `add` is idempotent), and the
number of registered orbitals never decreases. -/
theorem C27_first_registration_wins (s : TricubicBsplineTwistSet) (i : Int)
    (data data2 curP curP2 : Nat) :
    (map_find i s.P = none →
      map_find i (s.add i curP).P = some curP ∧
      (∀ j : Int, j ≠ i → map_find j (s.add i curP).P = map_find j s.P) ∧
      (s.add i curP).P.length = s.P.length + 1 ∧
      (s.add i curP).Init_calls = s.Init_calls) ∧
    (map_find i s.P = none →
      map_find i (s.add_data i data curP).P = some curP ∧
      (∀ j : Int, j ≠ i → map_find j (s.add_data i data curP).P = map_find j s.P) ∧
      (s.add_data i data curP).P.length = s.P.length + 1 ∧
      (s.add_data i data curP).Init_calls = s.Init_calls ++ [(data, curP)]) ∧
    (∀ v : Nat, map_find i s.P = some v →
      s.add i curP = s ∧ s.add_data i data curP = s) ∧
    (s.add i curP).add i curP2 = s.add i curP ∧
    (s.add_data i data curP).add_data i data2 curP2 = s.add_data i data curP ∧
    (s.add i curP).add_data i data2 curP2 = s.add i curP ∧
    (s.add_data i data curP).add i curP2 = s.add_data i data curP ∧
    s.P.length ≤ (s.add i curP).P.length ∧
    s.P.length ≤ (s.add_data i data curP).P.length := by
  have hadd : ∀ t : TricubicBsplineTwistSet, ∀ v : Nat, map_find i t.P = some v →
      ∀ c d : Nat, t.add i c = t ∧ t.add_data i d c = t := by
    intro t v hv c d
    simp [TricubicBsplineTwistSet.add, TricubicBsplineTwistSet.add_data, hv]
  have hreg1 : ∃ v, map_find i (s.add i curP).P = some v := by
    cases h : map_find i s.P with
    | none => exact ⟨curP, by simp [TricubicBsplineTwistSet.add, h, map_find_assign_same]⟩
    | some v => exact ⟨v, by simp [TricubicBsplineTwistSet.add, h]⟩
  have hreg2 : ∃ v, map_find i (s.add_data i data curP).P = some v := by
    cases h : map_find i s.P with
    | none => exact ⟨curP, by simp [TricubicBsplineTwistSet.add_data, h, map_find_assign_same]⟩
    | some v => exact ⟨v, by simp [TricubicBsplineTwistSet.add_data, h]⟩
  obtain ⟨v1, hv1⟩ := hreg1
  obtain ⟨v2, hv2⟩ := hreg2
  refine ⟨?_, ?_, ?_, (hadd _ v1 hv1 curP2 data2).1, (hadd _ v2 hv2 curP2 data2).2,
    (hadd _ v1 hv1 curP2 data2).2, (hadd _ v2 hv2 curP2 data2).1, ?_, ?_⟩
  · intro h
    refine ⟨?_, ?_, ?_, ?_⟩
    · simp [TricubicBsplineTwistSet.add, h, map_find_assign_same]
    · intro j hj
      simp [TricubicBsplineTwistSet.add, h, map_find_assign_other i j curP hj]
    · simp [TricubicBsplineTwistSet.add, h, map_assign_length_of_absent i curP s.P h]
    · simp [TricubicBsplineTwistSet.add, h]
  · intro h
    refine ⟨?_, ?_, ?_, ?_⟩
    · simp [TricubicBsplineTwistSet.add_data, h, map_find_assign_same]
    · intro j hj
      simp [TricubicBsplineTwistSet.add_data, h, map_find_assign_other i j curP hj]
    · simp [TricubicBsplineTwistSet.add_data, h, map_assign_length_of_absent i curP s.P h]
    · simp [TricubicBsplineTwistSet.add_data, h]
  · intro v hv
    exact hadd s v hv curP data
  · cases h : map_find i s.P with
    | none => simp [TricubicBsplineTwistSet.add, h, map_assign_length_of_absent i curP s.P h]
    | some v => simp [TricubicBsplineTwistSet.add, h]
  · cases h : map_find i s.P with
    | none =>
      simp [TricubicBsplineTwistSet.add_data, h, map_assign_length_of_absent i curP s.P h]
    | some v => simp [TricubicBsplineTwistSet.add_data, h]

/-- Witness for C27: orbital 3 is registered in an empty set, then added
again. -/
theorem C27_first_registration_wins_witness :
    map_find 3 (TricubicBsplineTwistSet.add { P := [], Init_calls := [] } 3 100).P = some 100 ∧
    TricubicBsplineTwistSet.add { P := [(3, 100)], Init_calls := [] } 3 200
      = { P := [(3, 100)], Init_calls := [] } :=
  ⟨((C27_first_registration_wins { P := [], Init_calls := [] } 3 0 0 100 200).1 rfl).1,
   ((C27_first_registration_wins { P := [(3, 100)], Init_calls := [] } 3 0 0 200 200).2.2.1
      100 rfl).1⟩

/-! ### The number of walkers after `run` -/

theorem to_int_of_fits (x : Int) (h0 : -(2 ^ 31) ≤ x) (h1 : x < 2 ^ 31) : to_int x = x := by
  unfold to_int
  have h : (x + 2 ^ 31) % 2 ^ 32 = x + 2 ^ 31 :=
    Int.emod_eq_of_lt (by omega) (by omega)
  rw [h]
  omega

/-- C28: let `destroyWalkers(k)` remove `k` of the active walkers and
`createWalkers(k)` add `k` walkers (counts below `2 ^ 31`). With `N` the
number of active walkers recorded after the sample generation and `a` the
number after the optimisation, `run` ends with `N` active walkers: for
`a > N` it makes the one call `destroyWalkers(a - N)`, otherwise the one call
`createWalkers(N - a)` (of 0 walkers when `a = N`). -/
theorem C28_run_restores_the_number_of_walkers (W : MCWalkerConfiguration) (N a : Nat)
    (hN : N < 2 ^ 31) (ha : a < 2 ^ 31)
    (hdestroy : ∀ active k : Nat, 0 < k → k ≤ active →
      W.destroyWalkers active (k : Int) = active - k)
    (hcreate : ∀ active k : Nat, W.createWalkers active (k : Int) = active + k) :
    (run W N a).2 = N ∧
    (N < a → (run W N a).1 = [WalkerCall.destroyWalkers ((a : Int) - N)]) ∧
    (a ≤ N → (run W N a).1 = [WalkerCall.createWalkers ((N : Int) - a)]) := by
  have hN' : (N : Int) < 2 ^ 31 := by exact_mod_cast hN
  have ha' : (a : Int) < 2 ^ 31 := by exact_mod_cast ha
  have e1 : to_int (N : Int) = N := to_int_of_fits _ (by omega) hN'
  have e2 : to_int ((a : Int) - N) = (a : Int) - N := to_int_of_fits _ (by omega) (by omega)
  by_cases hlt : N < a
  · have hpos : (a : Int) - N > 0 := by omega
    have hk : ((a : Int) - N) = ((a - N : Nat) : Int) := by omega
    have hrun : run W N a = ([WalkerCall.destroyWalkers ((a : Int) - N)],
        W.destroyWalkers a ((a : Int) - N)) := by
      simp only [run, e1, e2, if_pos hpos]
    refine ⟨?_, fun _ => by rw [hrun], fun h => by omega⟩
    rw [hrun, hk, hdestroy a (a - N) (by omega) (by omega)]
    omega
  · have hneg : ¬ ((a : Int) - N > 0) := by omega
    have e3 : to_int (-((a : Int) - N)) = (N : Int) - a :=
      (to_int_of_fits _ (by omega) (by omega)).trans (by omega)
    have hk : ((N : Int) - a) = ((N - a : Nat) : Int) := by omega
    have hrun : run W N a = ([WalkerCall.createWalkers ((N : Int) - a)],
        W.createWalkers a ((N : Int) - a)) := by
      simp only [run, e1, e2, e3, if_neg hneg]
    refine ⟨?_, fun h => absurd h hlt, fun _ => by rw [hrun]⟩
    rw [hrun, hk, hcreate a (N - a)]
    omega

/-- Witness for C28: 10 walkers after the samples, 14 after the optimisation. -/
theorem C28_run_restores_the_number_of_walkers_witness :
    (run counting_walkers 10 14).2 = 10 :=
  (C28_run_restores_the_number_of_walkers counting_walkers 10 14 (by decide) (by decide)
    (fun _ _ _ _ => by simp [counting_walkers])
    (fun _ _ => by simp [counting_walkers])).1

end qmcplusplus

namespace qmcplusplus

/-! ### The method string and the solver -/

theorem starts_with_iff (pat : List Char) :
    ∀ s : List Char, starts_with pat s = true ↔ ∃ rest, s = pat ++ rest := by
  induction pat with
  | nil => intro s; simp [starts_with]
  | cons p ps ih =>
    intro s
    cases s with
    | nil => simp [starts_with]
    | cons c cs =>
      simp only [starts_with, Bool.and_eq_true, decide_eq_true_eq, ih cs, List.cons_append,
        List.cons.injEq]
      constructor
      · rintro ⟨hpc, rest, hrest⟩
        exact ⟨rest, hpc.symm, hrest⟩
      · rintro ⟨rest, hpc, hrest⟩
        exact ⟨hpc.symm, rest, hrest⟩

theorem find_from_isSome_iff (pat : List Char) :
    ∀ (s : List Char) (pos : Nat),
      (∃ p, find_from pat s pos = some p) ↔ ∃ b a, s = b ++ pat ++ a := by
  intro s
  induction s with
  | nil =>
    intro pos
    by_cases h : starts_with pat [] = true
    · have h1 := (starts_with_iff pat []).mp h
      constructor
      · intro _
        obtain ⟨rest, hrest⟩ := h1
        exact ⟨[], rest, by simpa using hrest⟩
      · intro _
        exact ⟨pos, by simp [find_from, h]⟩
    · constructor
      · rintro ⟨p, hp⟩
        simp [find_from, h] at hp
      · rintro ⟨b, a, hba⟩
        exfalso
        apply h
        rw [starts_with_iff]
        have hb : b = [] := by
          cases b with
          | nil => rfl
          | cons x xs => simp at hba
        subst hb
        exact ⟨a, by simpa using hba⟩
  | cons c cs ih =>
    intro pos
    by_cases h : starts_with pat (c :: cs) = true
    · constructor
      · intro _
        obtain ⟨rest, hrest⟩ := (starts_with_iff pat (c :: cs)).mp h
        exact ⟨[], rest, by simpa using hrest⟩
      · intro _
        exact ⟨pos, by simp [find_from, h]⟩
    · have hstep : find_from pat (c :: cs) pos = find_from pat cs (pos + 1) := by
        simp [find_from, h]
      rw [hstep, ih (pos + 1)]
      constructor
      · rintro ⟨b, a, hba⟩
        exact ⟨c :: b, a, by simp [hba]⟩
      · rintro ⟨b, a, hba⟩
        cases b with
        | nil =>
          exfalso
          apply h
          rw [starts_with_iff]
          exact ⟨a, by simpa using hba⟩
        | cons x xs =>
          simp only [List.cons_append, List.cons.injEq] at hba
          exact ⟨xs, a, hba.2⟩

theorem find_from_bound (pat : List Char) :
    ∀ (s : List Char) (pos p : Nat), find_from pat s pos = some p →
      p + pat.length ≤ pos + s.length := by
  intro s
  induction s with
  | nil =>
    intro pos p hp
    by_cases h : starts_with pat [] = true
    · obtain ⟨rest, hrest⟩ := (starts_with_iff pat []).mp h
      have hlen : pat.length = 0 := by
        have := congrArg List.length hrest
        simp at this
        omega
      simp [find_from, h] at hp
      omega
    · simp [find_from, h] at hp
  | cons c cs ih =>
    intro pos p hp
    by_cases h : starts_with pat (c :: cs) = true
    · obtain ⟨rest, hrest⟩ := (starts_with_iff pat (c :: cs)).mp h
      have hlen : pat.length ≤ (c :: cs).length := by
        have := congrArg List.length hrest
        simp at this
        simp
        omega
      simp [find_from, h] at hp
      omega
    · have hstep : find_from pat (c :: cs) pos = find_from pat cs (pos + 1) := by
        simp [find_from, h]
      rw [hstep] at hp
      have := ih (pos + 1) p hp
      simp
      omega

/-- The test of line 196 is true exactly for the names that contain
`optimize`. -/
theorem names_optimize_iff (cname : String) :
    names_optimize cname = true ↔
      ∃ b a : List Char, cname.toList = b ++ ("optimize").toList ++ a := by
  rw [← find_from_isSome_iff ("optimize").toList cname.toList 0]
  unfold names_optimize
  cases h : find_from ("optimize").toList cname.toList 0 with
  | none => simp
  | some p =>
    have hb := find_from_bound _ _ _ _ h
    have hlen : (("optimize").toList).length = 8 := by decide
    have hp : p < cname.length := by
      have : cname.length = cname.toList.length := rfl
      omega
    simp [hp]

theorem scan_children_cons (m : String) (c : xmlNode) (rest : List xmlNode) :
    scan_children m (c :: rest) =
      scan_children (if names_optimize c.name = true then c.method.getD m else m) rest := by
  by_cases h1 : c.name = ("mcwalkerset")
  · have h2 : names_optimize c.name = false := by rw [h1]; decide
    rw [scan_children, if_pos h1, h2]
    simp
  · by_cases h2 : names_optimize c.name = true
    · cases hm : c.method <;> simp [scan_children, h1, h2, hm]
    · simp [scan_children, h1, h2]

theorem scan_children_append (xs : List xmlNode) :
    ∀ (m : String) (ys : List xmlNode),
      scan_children m (xs ++ ys) = scan_children (scan_children m xs) ys := by
  induction xs with
  | nil => intro m ys; simp [scan_children]
  | cons c rest ih =>
    intro m ys
    rw [List.cons_append, scan_children_cons, scan_children_cons, ih]

theorem scan_children_of_none (xs : List xmlNode) :
    ∀ m : String, (∀ d ∈ xs, names_optimize d.name = false ∨ d.method = none) →
      scan_children m xs = m := by
  induction xs with
  | nil => intro m _; simp [scan_children]
  | cons c rest ih =>
    intro m h
    have hc := h c (List.mem_cons_self c rest)
    have hrest : ∀ d ∈ rest, names_optimize d.name = false ∨ d.method = none :=
      fun d hd => h d (List.mem_cons_of_mem c hd)
    rw [scan_children_cons]
    rcases hc with hc | hc
    · simp [hc, ih m hrest]
    · by_cases h2 : names_optimize c.name = true
      · simp [h2, hc, ih m hrest]
      · simp [h2, ih m hrest]

/-- C29: the solver `put` creates is a function of the method string:
`anneal` gives `DampedDynamics`, `test` gives `testDerivOptimization`,
`flexOpt`, `flexopt`, `macopt` and `BFGS` abort and create nothing, every
other string, the default `cg` among them, gives `CGOptimization`. The method
string is the one `put` was entered with (`cg` after construction), replaced
by the `method` attribute of the last child whose name contains `optimize`
and that carries the attribute, when there is such a child. -/
theorem C29_solver_is_chosen_by_the_method_string (m att : String)
    (children before after : List xmlNode) (c : xmlNode) :
    choose_solver ("anneal") = SolverChoice.created Solver.DampedDynamics ∧
    choose_solver ("test") = SolverChoice.created Solver.testDerivOptimization ∧
    choose_solver ("flexOpt") = SolverChoice.abort ∧
    choose_solver ("flexopt") = SolverChoice.abort ∧
    choose_solver ("macopt") = SolverChoice.abort ∧
    choose_solver ("BFGS") = SolverChoice.abort ∧
    choose_solver default_optmethod = SolverChoice.created Solver.CGOptimization ∧
    (m ∉ [("anneal"), ("test"), ("flexOpt"), ("flexopt"), ("macopt"), ("BFGS")] →
      choose_solver m = SolverChoice.created Solver.CGOptimization) ∧
    put m false children = (scan_children m children, choose_solver (scan_children m children)) ∧
    (names_optimize c.name = true ↔
      ∃ b a : List Char, c.name.toList = b ++ ("optimize").toList ++ a) ∧
    (children = before ++ c :: after → names_optimize c.name = true → c.method = some att →
      (∀ d ∈ after, names_optimize d.name = false ∨ d.method = none) →
      scan_children m children = att) ∧
    ((∀ d ∈ children, names_optimize d.name = false ∨ d.method = none) →
      scan_children m children = m) := by
  refine ⟨by decide, by decide, by decide, by decide, by decide, by decide, by decide,
    ?_, ?_, names_optimize_iff c.name, ?_, scan_children_of_none children m⟩
  · intro h
    simp only [List.mem_cons, List.mem_singleton, List.not_mem_nil, or_false, not_or] at h
    obtain ⟨h1, h2, h3, h4, h5, h6⟩ := h
    simp [choose_solver, h1, h2, h3, h4, h5, h6]
  · simp [put]
  · intro hch hname hatt hafter
    rw [hch, scan_children_append, scan_children_cons, scan_children_of_none after _ hafter]
    simp [hname, hatt]

/-- Witness for C29: the last child whose name contains `optimize` and that
carries `method` decides, here `anneal`; a method string outside the list
gives the conjugate gradient solver. -/
theorem C29_solver_is_chosen_by_the_method_string_witness :
    scan_children ("cg")
        [{ name := ("optimize"), method := some ("test") },
         { name := ("optimizer"), method := some ("anneal") },
         { name := ("loop"), method := some ("BFGS") }] = ("anneal") ∧
    choose_solver ("powell") = SolverChoice.created Solver.CGOptimization :=
  ⟨(C29_solver_is_chosen_by_the_method_string ("cg") ("anneal")
      [{ name := ("optimize"), method := some ("test") },
       { name := ("optimizer"), method := some ("anneal") },
       { name := ("loop"), method := some ("BFGS") }]
      [{ name := ("optimize"), method := some ("test") }]
      [{ name := ("loop"), method := some ("BFGS") }]
      { name := ("optimizer"), method := some ("anneal") }).2.2.2.2.2.2.2.2.2.2.1
      rfl (by decide) rfl (by decide),
   (C29_solver_is_chosen_by_the_method_string ("powell") ("anneal") [] [] []
      { name := ("loop"), method := none }).2.2.2.2.2.2.2.1 (by decide)⟩

end qmcplusplus
